import Mathlib

/-!
Verification development for the vfi-meet-recording orchestrator core.

The definitions below are a shallow embedding of the TypeScript sources
`src/services/OrchestrationService.ts`, `src/services/LoadBalancerService.ts`
and `src/services/NodeManager.ts` together with the data model of
`src/types/interfaces.ts`.  Numbers that are JavaScript `number`s holding
non-negative integers are modelled as `Nat`; fractional arithmetic
(capacities, placement scores, load estimates) is modelled as `Rat`.
Outbound RPC calls are modelled by oracle parameters describing each call's
outcome, and by an explicit trace of emitted effects.  JavaScript `Map`s
whose values are mutable shared objects are modelled as a heap (`jobs`,
`ffmpegNodes`, `roomServers` lists keyed by identifier) plus the key sets
(`activeJobIds`, `jobQueue`), so that aliasing between the active-jobs map
and the pending queue is preserved.
-/

/-- Job lifecycle states (`JobStatus` in types/interfaces.ts). -/
inductive JobStatus where
  | pending
  | initializing
  | recording
  | completed
  | failed
  | cancelled
deriving DecidableEq, Repr

/-- Terminal states of the job state machine. -/
def JobStatus.isTerminal : JobStatus → Bool
  | .completed => true
  | .failed => true
  | .cancelled => true
  | _ => false

/-- The legal transition edges of the job state machine as given in the
spec (section 3): pending → initializing|failed|cancelled,
initializing → recording|failed|cancelled,
recording → completed|failed|cancelled, terminal states have no
successors. -/
def legalEdge : JobStatus → JobStatus → Bool
  | .pending, .initializing => true
  | .pending, .failed => true
  | .pending, .cancelled => true
  | .initializing, .recording => true
  | .initializing, .failed => true
  | .initializing, .cancelled => true
  | .recording, .completed => true
  | .recording, .failed => true
  | .recording, .cancelled => true
  | _, _ => false

/-- Hardware descriptor (`NodeSpecs` in types/interfaces.ts); `ram` is in
bytes. -/
structure NodeSpecs where
  cpuCores : Nat
  ram : Nat
  hasGPU : Bool
deriving DecidableEq, Repr

/-- Recorder node (`FFmpegNode` in types/interfaces.ts).  `capacity` is a
rational because the derived capacity `cores * 1.5 * ...` can be
fractional in the source. -/
structure FFmpegNode where
  id : String
  url : String
  region : String
  capacity : Rat
  currentLoad : Nat
  isHealthy : Bool
  lastHeartbeat : Nat
  specs : NodeSpecs
  supportedCodecs : List String
  activeJobs : List String
deriving DecidableEq, Repr

/-- Room server node (`RoomServerNode` in types/interfaces.ts). -/
structure RoomServerNode where
  id : String
  url : String
  region : String
  rooms : List String
  capacity : Nat
  currentLoad : Nat
  isHealthy : Bool
  lastHeartbeat : Nat
deriving DecidableEq, Repr

/-- Peer descriptor (the fields of `PeerInfo` the orchestrator core
reads). -/
structure PeerInfo where
  peerId : String
  displayName : String
deriving DecidableEq, Repr

/-- One RTP stream descriptor (`RTPStreamInfo`). -/
structure RTPStreamInfo where
  kind : String
  port : Nat
  codecName : String
deriving DecidableEq, Repr

/-- Recording options (the field the core dispatch logic reads). -/
structure RecordingOptions where
  quality : String
deriving DecidableEq, Repr

/-- RTP forwarding configuration built in `setupRTPForwarding`
(`RTPForwardingConfig`). -/
structure RTPForwardingConfig where
  jobId : String
  peerId : String
  targetIp : String
  ports : List Nat
  rtpStreams : List RTPStreamInfo
deriving DecidableEq, Repr

/-- A recording job (`DistributedRecordingJob`). -/
structure Job where
  jobId : String
  roomServerId : String
  roomId : String
  peerId : String
  peerInfo : PeerInfo
  ffmpegNodeId : String
  rtpStreams : List RTPStreamInfo
  rtpForwarding : Option RTPForwardingConfig
  options : RecordingOptions
  status : JobStatus
  startTime : Nat
  endTime : Option Nat
  outputPath : Option String
  errorMessage : Option String
deriving DecidableEq, Repr

/-- Placement requirement (`RecordingRequirements`).  The optional JS
fields `minCPUCores`/`minRAM` are `Option Nat` (`none` models
`undefined`). -/
structure RecordingRequirements where
  region : String
  codecRequirements : List String
  estimatedLoad : Rat
  preferGPU : Bool
  minCPUCores : Option Nat
  minRAM : Option Nat
deriving DecidableEq, Repr

/-- `Math.min` on rationals, written so that it computes by kernel
reduction. -/
def ratMin (a b : Rat) : Rat := if a ≤ b then a else b

/-- `Math.max` on rationals, written so that it computes by kernel
reduction. -/
def ratMax (a b : Rat) : Rat := if a ≤ b then b else a

/-- `OrchestrationService.calculateNodeCapacity`:
`capacity = cores * 1.5`, doubled with a GPU, then
`min(capacity, floor(ram / (500*1024*1024)), 12)`. -/
def calculateNodeCapacity (specs : NodeSpecs) : Rat :=
  let capacity : Rat := (specs.cpuCores : Rat) * (3 / 2)
  let capacity : Rat := if specs.hasGPU then capacity * 2 else capacity
  let ramCapacity : Rat := ((specs.ram / (500 * 1024 * 1024) : Nat) : Rat)
  ratMin capacity (ratMin ramCapacity 12)

/-- Modelled from the spec's words for the refinement claim C9: the
derived capacity formula
`min(cores * 1.5 * (hasGPU ? 2 : 1), floor(RAM_bytes / (500 * 2^20)), 12)`. -/
def capacitySpecFormula (specs : NodeSpecs) : Rat :=
  ratMin ((specs.cpuCores : Rat) * (3 / 2) * (if specs.hasGPU then 2 else 1))
    (ratMin ((specs.ram / (500 * 2 ^ 20) : Nat) : Rat) 12)

/-- Codec compatibility check used by the load balancer: every required
codec is in the node's supported list. -/
def codecMatchB (node : FFmpegNode) (req : RecordingRequirements) : Bool :=
  req.codecRequirements.all (fun c => node.supportedCodecs.contains c)

/-- `LoadBalancerService.calculateNodeScore`: free-capacity ratio * 40,
region +25 / cross-region -10, GPU-fit +20 or +10, `min(cores*2, 10)`,
load-ratio * 5 penalty, codec match +5, clamped at zero. -/
def calculateNodeScore (node : FFmpegNode) (req : RecordingRequirements) : Rat :=
  let score : Rat := 0
  let score := score + ((node.capacity - (node.currentLoad : Rat)) / node.capacity) * 40
  let score := score + (if node.region == req.region then 25 else -10)
  let score := score +
    (if node.specs.hasGPU && decide (req.estimatedLoad > 2) then 20
     else if !node.specs.hasGPU && decide (req.estimatedLoad ≤ 1) then 10
     else 0)
  let score := score + ratMin ((node.specs.cpuCores : Rat) * 2) 10
  let score := score - ((node.currentLoad : Rat) / node.capacity) * 5
  let score := score + (if codecMatchB node req then 5 else 0)
  ratMax score 0

/-- The filter pipeline of `LoadBalancerService.selectOptimalFFmpegNode`:
availability, region preference (with fallback), codec compatibility
(with fallback), GPU preference (with fallback), hard `minCPUCores` /
`minRAM` floors (JS truthiness: a value of 0 disables the filter). -/
def placementCandidates (nodes : List FFmpegNode) (req : RecordingRequirements) :
    List FFmpegNode :=
  let healthyNodes := nodes.filter
    (fun n => n.isHealthy && decide ((n.currentLoad : Rat) < n.capacity))
  let preferredRegionNodes := healthyNodes.filter (fun n => n.region == req.region)
  let candidateNodes :=
    if preferredRegionNodes.isEmpty then healthyNodes else preferredRegionNodes
  let codecCompatibleNodes := candidateNodes.filter (fun n => codecMatchB n req)
  let finalCandidates :=
    if codecCompatibleNodes.isEmpty then candidateNodes else codecCompatibleNodes
  let hw1 :=
    if req.preferGPU then
      let gpuNodes := finalCandidates.filter (fun n => n.specs.hasGPU)
      if gpuNodes.isEmpty then finalCandidates else gpuNodes
    else finalCandidates
  let hw2 :=
    match req.minCPUCores with
    | some c => if c == 0 then hw1 else hw1.filter (fun n => decide (c ≤ n.specs.cpuCores))
    | none => hw1
  match req.minRAM with
  | some r => if r == 0 then hw2 else hw2.filter (fun n => decide (r ≤ n.specs.ram))
  | none => hw2

/-- Stable insertion into a descending-by-score list: the new element goes
before the first element whose score it reaches.  Equal-score elements
keep their original relative order, as `Array.prototype.sort` (stable
since ES2019) does with the comparator `(a, b) => b.score - a.score`. -/
def insertByScoreDesc (req : RecordingRequirements) (x : FFmpegNode) :
    List FFmpegNode → List FFmpegNode
  | [] => [x]
  | y :: ys =>
    if calculateNodeScore y req ≤ calculateNodeScore x req then x :: y :: ys
    else y :: insertByScoreDesc req x ys

/-- Stable sort by descending score (`scoredNodes.sort((a, b) => b.score - a.score)`). -/
def sortByScoreDesc (req : RecordingRequirements) : List FFmpegNode → List FFmpegNode
  | [] => []
  | x :: xs => insertByScoreDesc req x (sortByScoreDesc req xs)

/-- `LoadBalancerService.selectOptimalFFmpegNode`: run the filter
pipeline, score, sort descending (stable), return the head or `none`. -/
def selectOptimalFFmpegNode (nodes : List FFmpegNode) (req : RecordingRequirements) :
    Option FFmpegNode :=
  match sortByScoreDesc req (placementCandidates nodes req) with
  | [] => none
  | n :: _ => some n

/-- The first element of a list attaining the maximal score (used to
characterise the head of the stable descending sort). -/
def pickMax (req : RecordingRequirements) : List FFmpegNode → Option FFmpegNode
  | [] => none
  | x :: xs =>
    match pickMax req xs with
    | none => some x
    | some m =>
      if calculateNodeScore m req ≤ calculateNodeScore x req then some x else some m

/-- `OrchestrationService.extractCodecRequirements`:
`[...new Set(streams.map(s => s.codecName))]` — deduplicate keeping the
first occurrence (JS `Set` insertion order). -/
def extractCodecRequirements (streams : List RTPStreamInfo) : List String :=
  (streams.map (fun s => s.codecName)).foldl
    (fun acc c => if acc.contains c then acc else acc ++ [c]) []

/-- `OrchestrationService.estimateRecordingLoad`: base load 1, plus a
quality-dependent addition when any stream is video. -/
def estimateRecordingLoad (streams : List RTPStreamInfo) (options : RecordingOptions) : Rat :=
  let base : Rat := 1
  if streams.any (fun s => s.kind == "video") then
    base + (if options.quality == "high" then 2
            else if options.quality == "medium" then 1
            else (1 : Rat) / 2)
  else base

/-- `OrchestrationService.extractIPFromURL`: the regex
`^https?:\/\/([^:\/]+)` — host part after the protocol, up to the first
colon or slash; `localhost` when there is no match. -/
def extractIPFromURL (url : String) : String :=
  let rest : Option String :=
    if url.startsWith "http://" then some (url.drop 7)
    else if url.startsWith "https://" then some (url.drop 8)
    else none
  match rest with
  | none => "localhost"
  | some r =>
    let host := r.takeWhile (fun c => !(c == ':') && !(c == '/'))
    if host == "" then "localhost" else host

/-- Registration data for a recorder node (`registerFFmpegNode`'s input). -/
structure FFmpegRegistration where
  url : String
  region : String
  specs : NodeSpecs
  supportedCodecs : Option (List String)
deriving DecidableEq, Repr

/-- `OrchestrationService.registerFFmpegNode`: fresh node with derived
capacity, zero load, empty active-jobs list, healthy, codec default
`['h264', 'vp8', 'opus']`. -/
def registerFFmpegNode (nodeId : String) (now : Nat) (reg : FFmpegRegistration) : FFmpegNode :=
  { id := nodeId
    url := reg.url
    region := reg.region
    capacity := calculateNodeCapacity reg.specs
    currentLoad := 0
    isHealthy := true
    lastHeartbeat := now
    specs := reg.specs
    supportedCodecs := reg.supportedCodecs.getD ["h264", "vp8", "opus"]
    activeJobs := [] }

/-- Outbound calls and local reversal actions, recorded as a trace. -/
inductive Effect where
  | allocPortsRpc (nodeUrl : String) (count : Nat)
  | configureForwardingRpc (roomUrl : String) (jobId : String)
  | startRecordingRpc (nodeUrl : String) (jobId : String)
  | stopRecordingRpc (nodeUrl : String) (jobId : String)
  | stopForwardingRpc (roomUrl : String) (jobId : String)
  | releasePortsCall (nodeId : String) (ports : List Nat)
deriving DecidableEq, Repr

/-- Is the effect a port release (`NodeManager.releasePorts`)? -/
def Effect.isRelease : Effect → Bool
  | .releasePortsCall _ _ => true
  | _ => false

/-- Is the effect a stop-rtp-forwarding call? -/
def Effect.isStopForwarding : Effect → Bool
  | .stopForwardingRpc _ _ => true
  | _ => false

/-- Outcomes of the three outbound calls made during `assignJobToNode`
(`allocate-ports`, `configure-rtp-forwarding`, `start-recording`).  An
`error` carries the message the corresponding `throw` would carry. -/
structure AssignOracle where
  allocPorts : Except String (List Nat)
  forward : Except String Unit
  start : Except String Unit
deriving Repr

/-- Result of `assignJobToNode`: the updated job, recorder and room
server, the trace of emitted calls, and whether the try-block
succeeded. -/
structure AssignResult where
  job : Job
  node : FFmpegNode
  roomServer : RoomServerNode
  effects : List Effect
  success : Bool
deriving Repr

/-- `OrchestrationService.assignJobToNode` (with `setupRTPForwarding`,
`allocateRTPPorts` and `startRecordingOnNode` inlined): set the job to
`initializing` with the recorder id; allocate ports on the recorder;
configure forwarding on the room server; start recording on the
recorder; then bump both load counters, append to the recorder's
active-jobs list and set the job to `recording`.  Any thrown error is
caught: the job becomes `failed` with the upstream message; no reversal
call is made.  (The recorder is assumed to return exactly the requested
number of ports, as the `allocate-ports` contract specifies.) -/
def assignJobToNode (job : Job) (node : FFmpegNode) (roomServer : RoomServerNode)
    (oracle : AssignOracle) : AssignResult :=
  let job := { job with status := JobStatus.initializing, ffmpegNodeId := node.id }
  let effAlloc := Effect.allocPortsRpc node.url job.rtpStreams.length
  match oracle.allocPorts with
  | .error m =>
    { job := { job with status := JobStatus.failed, errorMessage := some m }
      node := node, roomServer := roomServer
      effects := [effAlloc], success := false }
  | .ok ports =>
    let fwd : RTPForwardingConfig :=
      { jobId := job.jobId
        peerId := job.peerId
        targetIp := extractIPFromURL node.url
        ports := ports
        rtpStreams := job.rtpStreams.zipWith (fun s p => { s with port := p }) ports }
    let effFwd := Effect.configureForwardingRpc roomServer.url job.jobId
    match oracle.forward with
    | .error m =>
      { job := { job with status := JobStatus.failed, errorMessage := some m }
        node := node, roomServer := roomServer
        effects := [effAlloc, effFwd], success := false }
    | .ok _ =>
      let job := { job with rtpForwarding := some fwd }
      let effStart := Effect.startRecordingRpc node.url job.jobId
      match oracle.start with
      | .error m =>
        { job := { job with status := JobStatus.failed, errorMessage := some m }
          node := node, roomServer := roomServer
          effects := [effAlloc, effFwd, effStart], success := false }
      | .ok _ =>
        { job := { job with status := JobStatus.recording }
          node := { node with
                      currentLoad := node.currentLoad + 1
                      activeJobs := node.activeJobs ++ [job.jobId] }
          roomServer := { roomServer with currentLoad := roomServer.currentLoad + 1 }
          effects := [effAlloc, effFwd, effStart], success := true }

/-- The error of the first failing step of an assignment, `none` when all
three calls succeed. -/
def assignError (oracle : AssignOracle) : Option String :=
  match oracle.allocPorts with
  | .error m => some m
  | .ok _ =>
    match oracle.forward with
    | .error m => some m
    | .ok _ =>
      match oracle.start with
      | .error m => some m
      | .ok _ => none

/-- Heartbeat payload for a recorder (`updateFFmpegNodeHeartbeat`'s
`data`); `none` models an absent (`undefined`) field. -/
structure HeartbeatData where
  currentLoad : Option Nat
  activeJobs : Option (List String)
deriving DecidableEq, Repr

/-- The load a heartbeat effectively installs:
`data.currentLoad || node.currentLoad` — JS `||` keeps the old value when
the reported load is absent or `0` (falsy). -/
def effectiveLoad (node : FFmpegNode) (data : HeartbeatData) : Nat :=
  match data.currentLoad with
  | some n => if n = 0 then node.currentLoad else n
  | none => node.currentLoad

/-- The active-jobs list a heartbeat effectively installs:
`data.activeJobs || node.activeJobs` — an empty array is truthy in JS, so
`[]` does replace the old list. -/
def effectiveJobs (node : FFmpegNode) (data : HeartbeatData) : List String :=
  data.activeJobs.getD node.activeJobs

/-- `OrchestrationService.updateFFmpegNodeHeartbeat`: refresh the
heartbeat timestamp, install the reported load and active-jobs list
(with JS falsy fallbacks), assert health. -/
def applyFFmpegHeartbeat (node : FFmpegNode) (data : HeartbeatData) (now : Nat) : FFmpegNode :=
  { node with
      lastHeartbeat := now
      currentLoad := effectiveLoad node data
      activeJobs := effectiveJobs node data
      isHealthy := true }

/-- The spec invariant for recorder nodes: `|activeJobs| == currentLoad`. -/
@[reducible] def loadInvariant (node : FFmpegNode) : Prop :=
  node.activeJobs.length = node.currentLoad

/-- The orchestrator's mutable state.  `jobs` is the heap of job objects;
`activeJobIds` the key set of the `activeJobs` map (insertion order);
`jobQueue` holds queue entries by job identifier (the queue aliases the
same job objects). -/
structure OrchState where
  roomServers : List RoomServerNode
  ffmpegNodes : List FFmpegNode
  jobs : List Job
  activeJobIds : List String
  jobQueue : List String
deriving DecidableEq, Repr

/-- Replace (all) entries with the same key by `x`; models in-place
mutation of the object stored under that key. -/
def updateBy {α : Type} (key : α → String) (x : α) : List α → List α
  | [] => []
  | k :: l => (if key k = key x then x else k) :: updateBy key x l

/-- Look a job up in the heap. -/
def getJob (st : OrchState) (id : String) : Option Job :=
  st.jobs.find? (fun k => k.jobId == id)

/-- `this.activeJobs.get(jobId)`: present only while the id is in the map. -/
def activeGet (st : OrchState) (id : String) : Option Job :=
  if st.activeJobIds.contains id then getJob st id else none

/-- Write a mutated job object back to the heap. -/
def updateJob (st : OrchState) (j : Job) : OrchState :=
  { st with jobs := updateBy Job.jobId j st.jobs }

/-- Write a mutated recorder object back. -/
def updateNode (st : OrchState) (n : FFmpegNode) : OrchState :=
  { st with ffmpegNodes := updateBy FFmpegNode.id n st.ffmpegNodes }

/-- Write a mutated room-server object back. -/
def updateRoomServer (st : OrchState) (r : RoomServerNode) : OrchState :=
  { st with roomServers := updateBy RoomServerNode.id r st.roomServers }

/-- Clear the health flag of a room server (`roomServer.isHealthy = false`). -/
def markRoomServerUnhealthy (st : OrchState) (id : String) : OrchState :=
  { st with roomServers :=
      st.roomServers.map (fun r => if r.id == id then { r with isHealthy := false } else r) }

/-- Clear the health flag of a recorder. -/
def markFFmpegNodeUnhealthy (st : OrchState) (id : String) : OrchState :=
  { st with ffmpegNodes :=
      st.ffmpegNodes.map (fun n => if n.id == id then { n with isHealthy := false } else n) }

/-- The URL under which the recorder with the given identifier is
currently reachable (used to phrase which RPCs are emitted). -/
def nodeUrl (st : OrchState) (nid : String) : Option String :=
  (st.ffmpegNodes.find? (fun n => n.id == nid)).map (fun n => n.url)

/-- Outcome of one outbound `fetch`: 2xx, a non-2xx response, or a thrown
error (network failure / timeout) carrying its message. -/
inductive RpcResult where
  | ok
  | notOk
  | threw (msg : String)
deriving DecidableEq, Repr

/-- `OrchestrationService.stopRecordingOnNode`: POST `stop-recording`;
only on a 2xx response decrement the recorder's load
(`Math.max(0, load - 1)`, which is `Nat` subtraction here) and filter the
job out of its active list; a non-2xx response changes nothing; a thrown
error propagates. -/
def stopRecordingOnNode (job : Job) (node : FFmpegNode) (resp : RpcResult) :
    Except String FFmpegNode :=
  match resp with
  | .threw m => .error m
  | .ok => .ok { node with
                   currentLoad := node.currentLoad - 1
                   activeJobs := node.activeJobs.filter (fun id => id != job.jobId) }
  | .notOk => .ok node

/-- `OrchestrationService.stopRTPForwarding`: POST `stop-rtp-forwarding`;
only on a 2xx response decrement the room server's load (clamped at
zero); a thrown error propagates. -/
def stopRTPForwardingOnServer (job : Job) (roomServer : RoomServerNode) (resp : RpcResult) :
    Except String RoomServerNode :=
  match resp with
  | .threw m => .error m
  | .ok => .ok { roomServer with currentLoad := roomServer.currentLoad - 1 }
  | .notOk => .ok roomServer

/-- Result of `stopDistributedRecording`. -/
structure StopResult where
  state : OrchState
  outcome : Except String String
  effects : List Effect
deriving Repr

/-- The catch-block of `stopDistributedRecording`: mark the job `failed`
with the upstream message, stamp `endTime`, re-throw.  The job is not
removed from the active map. -/
def stopCatch (st : OrchState) (job : Job) (m : String) (now : Nat)
    (effs : List Effect) : StopResult :=
  let job := { job with
                 status := JobStatus.failed
                 errorMessage := some m
                 endTime := some now }
  { state := updateJob st job, outcome := .error m, effects := effs }

/-- The tail of `stopDistributedRecording`'s try-block: mark the job
`completed`, stamp `endTime`, delete it from the active map, return the
stored output path or the default message. -/
def stopComplete (st : OrchState) (job : Job) (now : Nat) (effs : List Effect) : StopResult :=
  let job := { job with status := JobStatus.completed, endTime := some now }
  let st := updateJob st job
  let st := { st with activeJobIds := st.activeJobIds.erase job.jobId }
  { state := st
    outcome := .ok (job.outputPath.getD ("Recording " ++ job.jobId ++ " completed"))
    effects := effs }

/-- The room-server half of `stopDistributedRecording`'s try-block. -/
def stopAfterNode (st : OrchState) (job : Job) (fwdResp : RpcResult) (now : Nat)
    (effs : List Effect) : StopResult :=
  match st.roomServers.find? (fun r => r.id == job.roomServerId) with
  | some rs =>
    let effs := effs ++ [Effect.stopForwardingRpc rs.url job.jobId]
    match stopRTPForwardingOnServer job rs fwdResp with
    | .error m => stopCatch st job m now effs
    | .ok rs => stopComplete (updateRoomServer st rs) job now effs
  | none => stopComplete st job now effs

/-- `OrchestrationService.stopDistributedRecording`: look the job up in
the active map (absent ⇒ throw not-found); stop on the recorder if its
id resolves; stop forwarding on the room server if it resolves; then
complete, or on any thrown error run the catch-block. -/
def stopDistributedRecording (st : OrchState) (jobId : String)
    (nodeResp fwdResp : RpcResult) (now : Nat) : StopResult :=
  match activeGet st jobId with
  | none => { state := st
              outcome := .error ("Recording job " ++ jobId ++ " not found")
              effects := [] }
  | some job =>
    match st.ffmpegNodes.find? (fun n => n.id == job.ffmpegNodeId) with
    | some node =>
      let effs := [Effect.stopRecordingRpc node.url job.jobId]
      match stopRecordingOnNode job node nodeResp with
      | .error m => stopCatch st job m now effs
      | .ok node => stopAfterNode (updateNode st node) job fwdResp now effs
    | none => stopAfterNode st job fwdResp now []

/-- The failed version of a job the room-server failure handler writes:
status `failed`, reason `Room server became unhealthy`, `endTime`
stamped. -/
def failedJobVer (j : Job) (now : Nat) : Job :=
  { j with
      status := JobStatus.failed
      errorMessage := some "Room server became unhealthy"
      endTime := some now }

/-- Loop body of `handleUnhealthyRoomServer`: mark the job failed with
reason `Room server became unhealthy`, stamp `endTime`, then best-effort
stop on its recorder (the `.catch(() => {})` swallows errors). -/
def failJobStep (now : Nat) (stopResp : String → RpcResult)
    (acc : OrchState × List Effect) (j : Job) : OrchState × List Effect :=
  match acc.1.ffmpegNodes.find? (fun n => n.id == j.ffmpegNodeId) with
  | some node =>
    match stopRecordingOnNode j node (stopResp j.jobId) with
    | .ok node2 => (updateNode (updateJob acc.1 (failedJobVer j now)) node2,
        acc.2 ++ [Effect.stopRecordingRpc node.url j.jobId])
    | .error _ => (updateJob acc.1 (failedJobVer j now),
        acc.2 ++ [Effect.stopRecordingRpc node.url j.jobId])
  | none => (updateJob acc.1 (failedJobVer j now), acc.2)

/-- The jobs `handleUnhealthyRoomServer` collects: active jobs rooted at
the room server whose status is `recording` (initializing jobs are not
selected by the source). -/
def affectedByRoomServer (st : OrchState) (rsId : String) : List Job :=
  (st.activeJobIds.filterMap (getJob st)).filter
    (fun j => j.roomServerId == rsId && j.status == JobStatus.recording)

/-- `OrchestrationService.handleUnhealthyRoomServer`: clear the health
flag, then fail every affected job and best-effort stop its recorder. -/
def handleUnhealthyRoomServer (st : OrchState) (rsId : String)
    (stopResp : String → RpcResult) (now : Nat) : OrchState × List Effect :=
  let st := markRoomServerUnhealthy st rsId
  (affectedByRoomServer st rsId).foldl (failJobStep now stopResp) (st, [])

/-- The placement requirement `handleUnhealthyFFmpegNode` builds for a
reassignment: the *peer's display name* (falling back to `'default'`
when empty, JS `||`) is passed as the region, the job's codecs, and a
flat estimated load of 1. -/
def reassignRequirements (job : Job) : RecordingRequirements :=
  { region := if job.peerInfo.displayName == "" then "default" else job.peerInfo.displayName
    codecRequirements := extractCodecRequirements job.rtpStreams
    estimatedLoad := 1
    preferGPU := false
    minCPUCores := none
    minRAM := none }

/-- The reset `handleUnhealthyFFmpegNode` applies before re-running
`assignJobToNode`: status back to `pending`, recorder id cleared. -/
def failoverPendingJob (job : Job) : Job :=
  { job with status := JobStatus.pending, ffmpegNodeId := "" }

/-- The no-recorder branch of `handleUnhealthyFFmpegNode`: mark the job
failed with reason `No available FFmpeg nodes for reassignment`. -/
def failoverFailJob (job : Job) (now : Nat) : Job :=
  { job with
      status := JobStatus.failed
      errorMessage := some "No available FFmpeg nodes for reassignment"
      endTime := some now }

/-- Loop body of `handleUnhealthyFFmpegNode`: consult the placement
engine over the remaining healthy recorders with `reassignRequirements`;
on success re-run the assign path from `pending`; otherwise fail the
job. -/
def reassignStep (nodeId : String) (oracle : String → AssignOracle) (now : Nat)
    (st : OrchState) (j : Job) : OrchState :=
  match selectOptimalFFmpegNode
      (st.ffmpegNodes.filter (fun n => n.isHealthy && n.id != nodeId))
      (reassignRequirements j) with
  | some newNode =>
    match st.roomServers.find? (fun r => r.id == j.roomServerId) with
    | some rs =>
      let res := assignJobToNode (failoverPendingJob j) newNode rs (oracle j.jobId)
      updateRoomServer (updateNode (updateJob st res.job) res.node) res.roomServer
    | none => st
  | none => updateJob st (failoverFailJob j now)

/-- The jobs `handleUnhealthyFFmpegNode` collects: active jobs assigned
to the recorder whose status is `recording`. -/
def affectedByFFmpegNode (st : OrchState) (nodeId : String) : List Job :=
  (st.activeJobIds.filterMap (getJob st)).filter
    (fun j => j.ffmpegNodeId == nodeId && j.status == JobStatus.recording)

/-- `OrchestrationService.handleUnhealthyFFmpegNode`: clear the health
flag, then try to reassign every affected job. -/
def handleUnhealthyFFmpegNode (st : OrchState) (nodeId : String)
    (oracle : String → AssignOracle) (now : Nat) : OrchState :=
  let st := markFFmpegNodeUnhealthy st nodeId
  (affectedByFFmpegNode st nodeId).foldl (reassignStep nodeId oracle now) st

/-- The recorders `processJobQueue` snapshots as available: healthy and
below capacity (identifiers; the loop re-reads their current, possibly
mutated, state through these identifiers, modelling JS aliasing). -/
def drainAvailIds (st : OrchState) : List String :=
  (st.ffmpegNodes.filter
    (fun n => n.isHealthy && decide ((n.currentLoad : Rat) < n.capacity))).map
      (fun n => n.id)

/-- Current state of the snapshot's recorders. -/
def drainAvailNodes (st : OrchState) (avail : List String) : List FFmpegNode :=
  avail.filterMap (fun i => st.ffmpegNodes.find? (fun n => n.id == i))

/-- The placement requirement `processJobQueue` builds for a queued job:
the room server's region, the job's codecs, and the estimated load. -/
def drainRequirements (rs : RoomServerNode) (job : Job) : RecordingRequirements :=
  { region := rs.region
    codecRequirements := extractCodecRequirements job.rtpStreams
    estimatedLoad := estimateRecordingLoad job.rtpStreams job.options
    preferGPU := false
    minCPUCores := none
    minRAM := none }

/-- Loop body of `processJobQueue`: skip jobs whose room server is gone
or unhealthy; consult the placement engine over the remaining snapshot
of available recorders; on success remove the queue entry (first
occurrence) and assign, and drop the chosen recorder from the
snapshot. -/
def queueDrainStep (oracle : String → AssignOracle)
    (acc : OrchState × List String) (jobId : String) : OrchState × List String :=
  let st := acc.1
  let avail := acc.2
  match getJob st jobId with
  | none => (st, avail)
  | some job =>
    match st.roomServers.find? (fun r => r.id == job.roomServerId) with
    | none => (st, avail)
    | some rs =>
      if !rs.isHealthy then (st, avail)
      else
        match selectOptimalFFmpegNode (drainAvailNodes st avail)
            (drainRequirements rs job) with
        | none => (st, avail)
        | some node =>
          let st := { st with jobQueue := st.jobQueue.erase jobId }
          let res := assignJobToNode job node rs (oracle jobId)
          let st := updateRoomServer (updateNode (updateJob st res.job) res.node) res.roomServer
          (st, avail.erase node.id)

/-- `OrchestrationService.processJobQueue`: snapshot the queue and the
currently-available recorders, then drain. -/
def processJobQueue (st : OrchState) (oracle : String → AssignOracle) : OrchState :=
  if st.jobQueue.isEmpty then st
  else (st.jobQueue.foldl (queueDrainStep oracle) (st, drainAvailIds st)).1

/-- The spec invariant on a single job: `endTime` is set iff the status
is terminal. -/
@[reducible] def endTimeConsistent (j : Job) : Prop :=
  j.endTime.isSome = j.status.isTerminal

/-! ### Concrete fleet data used in counterexamples and witnesses -/

/-- Hardware of the spec's happy-path scenario: 4 cores, 8 GiB, no GPU. -/
def exSpecs : NodeSpecs :=
  { cpuCores := 4, ram := 8 * 2 ^ 30, hasGPU := false }

/-- A pending job from room server `rs1` requested for peer "Alice". -/
def exJob : Job :=
  { jobId := "j1"
    roomServerId := "rs1"
    roomId := "room1"
    peerId := "p1"
    peerInfo := { peerId := "p1", displayName := "Alice" }
    ffmpegNodeId := ""
    rtpStreams := [{ kind := "audio", port := 0, codecName := "opus" }]
    rtpForwarding := none
    options := { quality := "medium" }
    status := JobStatus.pending
    startTime := 100
    endTime := none
    outputPath := none
    errorMessage := none }

/-- A healthy idle recorder in `us-east-1`. -/
def exNode : FFmpegNode :=
  { id := "n1"
    url := "http://n1"
    region := "us-east-1"
    capacity := 6
    currentLoad := 0
    isHealthy := true
    lastHeartbeat := 0
    specs := exSpecs
    supportedCodecs := ["h264", "vp8", "opus"]
    activeJobs := [] }

/-- A healthy room server in `us-east-1`. -/
def exRoomServer : RoomServerNode :=
  { id := "rs1"
    url := "http://rs1"
    region := "us-east-1"
    rooms := ["room1"]
    capacity := 10
    currentLoad := 1
    isHealthy := true
    lastHeartbeat := 0 }

/-- An oracle on which all three assignment calls succeed. -/
def oracleOk : AssignOracle :=
  { allocPorts := .ok [5000, 5002], forward := .ok (), start := .ok () }

/-- An oracle on which `start-recording` fails after ports were allocated
and RTP forwarding was configured. -/
def oracleStartFails : AssignOracle :=
  { allocPorts := .ok [5000, 5002]
    forward := .ok ()
    start := .error "Failed to start recording on FFmpeg node: Internal Server Error" }

/-- A recorder currently running job `j1`. -/
def nodeC2 : FFmpegNode :=
  { exNode with currentLoad := 1, activeJobs := ["j1"] }

/-- The recorder state after a successful recorder-side stop of `j1`. -/
def nodeC2stopped : FFmpegNode :=
  { nodeC2 with currentLoad := 0, activeJobs := [] }

/-- Job `j1` in status `recording` on recorder `n1`. -/
def exJobRec : Job :=
  { exJob with status := JobStatus.recording, ffmpegNodeId := "n1" }

/-- A job that failed during assignment and is still in the active map
(the source never removes failed jobs from the map); its `endTime` is
unset, as the assignment catch-block leaves it. -/
def jobC4 : Job :=
  { exJob with
      jobId := "j4"
      status := JobStatus.failed
      ffmpegNodeId := "n1"
      errorMessage := some "earlier failure"
      endTime := none }

/-- A completed job: terminal, stamped, with a stored outcome, already
removed from the active map. -/
def jobC4b : Job :=
  { exJob with
      jobId := "j5"
      status := JobStatus.completed
      endTime := some 400
      outputPath := some "/recordings/j5.mp4" }

/-- Recorder `n1` still accounting for job `j4`. -/
def nodeC4 : FFmpegNode :=
  { exNode with currentLoad := 1, activeJobs := ["j4"] }

/-- State with a terminal job in the map (`j4`) and a terminal job
removed from the map (`j5`). -/
def stateC4 : OrchState :=
  { roomServers := [exRoomServer]
    ffmpegNodes := [nodeC4]
    jobs := [jobC4, jobC4b]
    activeJobIds := ["j4"]
    jobQueue := [] }

/-- Job `j6` recording on `n1`. -/
def jobC6 : Job :=
  { exJob with jobId := "j6", status := JobStatus.recording, ffmpegNodeId := "n1" }

/-- Recorder `n1` accounting for `j6`. -/
def nodeC6 : FFmpegNode :=
  { exNode with currentLoad := 1, activeJobs := ["j6"] }

/-- State with one recording job `j6` on recorder `n1`. -/
def stateC6 : OrchState :=
  { roomServers := [exRoomServer]
    ffmpegNodes := [nodeC6]
    jobs := [jobC6]
    activeJobIds := ["j6"]
    jobQueue := [] }

/-- Job `j7` still `initializing`, rooted at `rs1`. -/
def jobC7init : Job :=
  { exJob with jobId := "j7", status := JobStatus.initializing, ffmpegNodeId := "n1" }

/-- Job `j8` in `recording`, rooted at `rs1`. -/
def jobC7rec : Job :=
  { exJob with jobId := "j8", status := JobStatus.recording, ffmpegNodeId := "n1" }

/-- Recorder `n1` accounting for `j7` and `j8`. -/
def nodeC7 : FFmpegNode :=
  { exNode with currentLoad := 2, activeJobs := ["j7", "j8"] }

/-- State with an `initializing` and a `recording` job rooted at `rs1`. -/
def stateC7 : OrchState :=
  { roomServers := [exRoomServer]
    ffmpegNodes := [nodeC7]
    jobs := [jobC7init, jobC7rec]
    activeJobIds := ["j7", "j8"]
    jobQueue := [] }

/-- Two identical recorders; `nodeB`'s identifier sorts lexicographically
after `nodeA`'s. -/
def nodeA : FFmpegNode :=
  { exNode with id := "a", url := "http://a" }

/-- Identical to `nodeA` except for the identifier. -/
def nodeB : FFmpegNode :=
  { exNode with id := "b", url := "http://b" }

/-- A requirement both `nodeA` and `nodeB` satisfy equally well. -/
def reqC8 : RecordingRequirements :=
  { region := "us-east-1"
    codecRequirements := ["opus"]
    estimatedLoad := 1
    preferGPU := false
    minCPUCores := none
    minRAM := none }

/-- A pending, still-queued job (no recorder assigned). -/
def jobC10 : Job :=
  { exJob with jobId := "jq" }

/-- State where `jq` is pending: in the active map and in the queue. -/
def stateC10 : OrchState :=
  { roomServers := [exRoomServer]
    ffmpegNodes := [exNode]
    jobs := [jobC10]
    activeJobIds := ["jq"]
    jobQueue := ["jq"] }

/-! ### Generic lemmas about the keyed heap -/

/-- Writing an object back makes it the one found under its key, provided
some object was stored under that key. -/
theorem find?_updateBy {α : Type} (key : α → String) (x : α) (l : List α) (id : String)
    (hx : key x = id) (h : (l.find? (fun k => key k == id)).isSome = true) :
    (updateBy key x l).find? (fun k => key k == id) = some x := by
  induction l with
  | nil => simp at h
  | cons a l ih =>
    by_cases ha : key a = id
    · have hax : key a = key x := by rw [hx, ha]
      have hxid : (key x == id) = true := beq_iff_eq.mpr hx
      rw [updateBy, if_pos hax, List.find?_cons]
      simp only [hxid]
    · have hax : ¬ key a = key x := by rw [hx]; exact ha
      have haid : (key a == id) = false := beq_eq_false_iff_ne.mpr ha
      have h' : (l.find? (fun k => key k == id)).isSome = true := by
        rw [List.find?_cons] at h
        simpa only [haid] using h
      rw [updateBy, if_neg hax, List.find?_cons]
      simpa only [haid] using ih h'

/-- Writing an object back does not change lookups under other keys. -/
theorem find?_updateBy_ne {α : Type} (key : α → String) (x : α) (l : List α) (id : String)
    (hne : key x ≠ id) :
    (updateBy key x l).find? (fun k => key k == id) = l.find? (fun k => key k == id) := by
  induction l with
  | nil => rfl
  | cons a l ih =>
    by_cases hax : key a = key x
    · have haid : (key a == id) = false := by
        apply beq_eq_false_iff_ne.mpr; rw [hax]; exact hne
      have hxid : (key x == id) = false := beq_eq_false_iff_ne.mpr hne
      rw [updateBy, if_pos hax, List.find?_cons, List.find?_cons]
      simpa only [hxid, haid] using ih
    · by_cases haid : (key a == id) = true
      · rw [updateBy, if_neg hax, List.find?_cons, List.find?_cons]
        simp only [haid]
      · have haid' : (key a == id) = false := by
          cases hb : (key a == id) with
          | true => exact absurd hb haid
          | false => rfl
        rw [updateBy, if_neg hax, List.find?_cons, List.find?_cons]
        simpa only [haid'] using ih

/-- Heap projections untouched by the other update helpers. -/
theorem getJob_updateNode (st : OrchState) (n : FFmpegNode) (id : String) :
    getJob (updateNode st n) id = getJob st id := rfl

theorem getJob_updateRoomServer (st : OrchState) (r : RoomServerNode) (id : String) :
    getJob (updateRoomServer st r) id = getJob st id := rfl

theorem getJob_markRoomServerUnhealthy (st : OrchState) (rsId id : String) :
    getJob (markRoomServerUnhealthy st rsId) id = getJob st id := rfl

/-- Writing a job back makes it the one found under its identifier. -/
theorem getJob_updateJob (st : OrchState) (j : Job) (id : String)
    (hid : j.jobId = id) (h : (getJob st id).isSome = true) :
    getJob (updateJob st j) id = some j :=
  find?_updateBy Job.jobId j st.jobs id hid h

/-- Writing a job back does not change lookups of other identifiers. -/
theorem getJob_updateJob_ne (st : OrchState) (j : Job) (id : String)
    (hne : j.jobId ≠ id) :
    getJob (updateJob st j) id = getJob st id :=
  find?_updateBy_ne Job.jobId j st.jobs id hne

/-- A found job carries the identifier it was looked up under. -/
theorem getJob_id (st : OrchState) (id : String) (j : Job)
    (h : getJob st id = some j) : j.jobId = id := by
  unfold getJob at h
  exact beq_iff_eq.mp (@List.find?_some Job (fun k => k.jobId == id) j st.jobs h)

/-- An active-map hit is a heap hit with a present key. -/
theorem activeGet_eq_some (st : OrchState) (id : String) (j : Job)
    (h : activeGet st id = some j) :
    getJob st id = some j ∧ st.activeJobIds.contains id = true := by
  unfold activeGet at h
  by_cases hc : st.activeJobIds.contains id = true
  · rw [if_pos hc] at h; exact ⟨h, hc⟩
  · rw [if_neg hc] at h; cases h

/-- Removing one matching element of a list of strings: the filtered
length drops by the number of occurrences. -/
theorem length_filter_ne (l : List String) (a : String) :
    (l.filter (fun x => x != a)).length = l.length - l.count a := by
  induction l with
  | nil => rfl
  | cons x xs ih =>
    have hc := List.count_le_length a xs
    by_cases h : x = a
    · subst h
      simp [List.filter_cons, List.count_cons, ih]
    · have h1 : (x != a) = true := bne_iff_ne.mpr h
      have h2 : (x == a) = false := beq_eq_false_iff_ne.mpr h
      simp [List.filter_cons, List.count_cons, h1, h2, ih]
      omega

/-! ### Lemmas about the stable descending sort of the placement engine -/

/-- Insertion never produces an empty list. -/
theorem insertByScoreDesc_ne_nil (req : RecordingRequirements) (x : FFmpegNode)
    (l : List FFmpegNode) : insertByScoreDesc req x l ≠ [] := by
  cases l with
  | nil => simp [insertByScoreDesc]
  | cons y ys =>
    rw [insertByScoreDesc]
    by_cases hc : calculateNodeScore y req ≤ calculateNodeScore x req
    · rw [if_pos hc]; simp
    · rw [if_neg hc]; simp

/-- The sort is empty exactly on the empty list. -/
theorem sortByScoreDesc_eq_nil (req : RecordingRequirements) (l : List FFmpegNode)
    (h : sortByScoreDesc req l = []) : l = [] := by
  cases l with
  | nil => rfl
  | cons x xs =>
    rw [sortByScoreDesc] at h
    exact absurd h (insertByScoreDesc_ne_nil req x (sortByScoreDesc req xs))

/-- The head of the stable descending sort is the first element attaining
the maximal score. -/
theorem head?_sortByScoreDesc (req : RecordingRequirements) (l : List FFmpegNode) :
    (sortByScoreDesc req l).head? = pickMax req l := by
  induction l with
  | nil => rfl
  | cons x xs ih =>
    rw [sortByScoreDesc, pickMax]
    cases hs : sortByScoreDesc req xs with
    | nil =>
      have hxs : xs = [] := sortByScoreDesc_eq_nil req xs hs
      subst hxs
      rfl
    | cons y ys =>
      rw [hs] at ih
      rw [← ih]
      rw [insertByScoreDesc]
      by_cases hc : calculateNodeScore y req ≤ calculateNodeScore x req
      · rw [if_pos hc]
        simp only [List.head?]
        rw [if_pos hc]
      · rw [if_neg hc]
        simp only [List.head?]
        rw [if_neg hc]

/-- `pickMax` is never `none` on a nonempty list. -/
theorem pickMax_cons_isSome (req : RecordingRequirements) (x : FFmpegNode)
    (xs : List FFmpegNode) : (pickMax req (x :: xs)).isSome = true := by
  rw [pickMax]
  cases pickMax req xs with
  | none => rfl
  | some m =>
    show (if calculateNodeScore m req ≤ calculateNodeScore x req
      then some x else some m).isSome = true
    by_cases hc : calculateNodeScore m req ≤ calculateNodeScore x req
    · rw [if_pos hc]; rfl
    · rw [if_neg hc]; rfl

/-- `pickMax` returns the first element of maximal score: it occurs at an
index before which every element scores strictly lower, and no element of
the list scores higher. -/
theorem pickMax_spec (req : RecordingRequirements) (l : List FFmpegNode) (m : FFmpegNode)
    (h : pickMax req l = some m) :
    ∃ i, l.get? i = some m
      ∧ (∀ j y, l.get? j = some y → calculateNodeScore y req ≤ calculateNodeScore m req)
      ∧ (∀ j y, j < i → l.get? j = some y →
          calculateNodeScore y req < calculateNodeScore m req) := by
  induction l generalizing m with
  | nil => cases h
  | cons x xs ih =>
    rw [pickMax] at h
    cases hp : pickMax req xs with
    | none =>
      rw [hp] at h
      have hxs : xs = [] := by
        cases xs with
        | nil => rfl
        | cons z zs =>
          have := pickMax_cons_isSome req z zs
          rw [hp] at this
          cases this
      subst hxs
      cases h
      refine ⟨0, rfl, ?_, ?_⟩
      · intro j y hj
        cases j with
        | zero => cases hj; exact le_refl _
        | succ j => cases hj
      · intro j y hj hy
        exact absurd hj (Nat.not_lt_zero j)
    | some k =>
      rw [hp] at h
      have h2 : (if calculateNodeScore k req ≤ calculateNodeScore x req
          then some x else some k) = some m := h
      by_cases hc : calculateNodeScore k req ≤ calculateNodeScore x req
      · rw [if_pos hc] at h2
        cases h2
        obtain ⟨i, hi, hmax, hstrict⟩ := ih k hp
        refine ⟨0, rfl, ?_, ?_⟩
        · intro j y hj
          cases j with
          | zero => cases hj; exact le_refl _
          | succ j => exact le_trans (hmax j y hj) hc
        · intro j y hj hy
          exact absurd hj (Nat.not_lt_zero j)
      · rw [if_neg hc] at h2
        cases h2
        obtain ⟨i, hi, hmax, hstrict⟩ := ih m hp
        refine ⟨i + 1, hi, ?_, ?_⟩
        · intro j y hj
          cases j with
          | zero => cases hj; exact le_of_lt (lt_of_not_le hc)
          | succ j => exact hmax j y hj
        · intro j y hj hy
          cases j with
          | zero => cases hy; exact lt_of_not_le hc
          | succ j => exact hstrict j y (Nat.lt_of_succ_lt_succ hj) hy

/-! ### Lemmas about the stop path -/

/-- The catch-block: error surfaced, job failed with stamped `endTime`,
nothing else of the state touched. -/
theorem stopCatch_spec (st : OrchState) (job : Job) (m : String) (now : Nat)
    (effs : List Effect) (h : (getJob st job.jobId).isSome = true) :
    (stopCatch st job m now effs).outcome = .error m
    ∧ getJob (stopCatch st job m now effs).state job.jobId
      = some { job with status := JobStatus.failed, errorMessage := some m,
                        endTime := some now }
    ∧ (stopCatch st job m now effs).state.ffmpegNodes = st.ffmpegNodes
    ∧ (stopCatch st job m now effs).state.activeJobIds = st.activeJobIds
    ∧ (stopCatch st job m now effs).state.jobQueue = st.jobQueue
    ∧ (stopCatch st job m now effs).effects = effs :=
  ⟨rfl, getJob_updateJob st _ job.jobId rfl h, rfl, rfl, rfl, rfl⟩

/-- The completion tail: stored outcome returned, job completed with
stamped `endTime`, key erased from the active map, queue untouched. -/
theorem stopComplete_spec (st : OrchState) (job : Job) (now : Nat) (effs : List Effect)
    (h : (getJob st job.jobId).isSome = true) :
    (stopComplete st job now effs).outcome
      = .ok (job.outputPath.getD ("Recording " ++ job.jobId ++ " completed"))
    ∧ getJob (stopComplete st job now effs).state job.jobId
      = some { job with status := JobStatus.completed, endTime := some now }
    ∧ (stopComplete st job now effs).state.ffmpegNodes = st.ffmpegNodes
    ∧ (stopComplete st job now effs).state.activeJobIds = st.activeJobIds.erase job.jobId
    ∧ (stopComplete st job now effs).state.jobQueue = st.jobQueue
    ∧ (stopComplete st job now effs).effects = effs :=
  ⟨rfl, getJob_updateJob st _ job.jobId rfl h, rfl, rfl, rfl, rfl⟩

/-- The room-server half of the stop path ends in completion or in the
catch-block; either way the job is terminal with `endTime` stamped. -/
theorem stopAfterNode_spec (st : OrchState) (job : Job) (fwdResp : RpcResult) (now : Nat)
    (effs : List Effect) (h : (getJob st job.jobId).isSome = true) :
    (∃ s, (stopAfterNode st job fwdResp now effs).outcome = .ok s
        ∧ getJob (stopAfterNode st job fwdResp now effs).state job.jobId
          = some { job with status := JobStatus.completed, endTime := some now })
    ∨ (∃ m, (stopAfterNode st job fwdResp now effs).outcome = .error m
        ∧ getJob (stopAfterNode st job fwdResp now effs).state job.jobId
          = some { job with status := JobStatus.failed, errorMessage := some m,
                            endTime := some now }) := by
  unfold stopAfterNode
  cases hrs : st.roomServers.find? (fun r => r.id == job.roomServerId) with
  | none =>
    exact Or.inl ⟨_, (stopComplete_spec st job now effs h).1,
      (stopComplete_spec st job now effs h).2.1⟩
  | some rs =>
    cases fwdResp with
    | threw m =>
      exact Or.inr ⟨m, (stopCatch_spec st job m now _ h).1,
        (stopCatch_spec st job m now _ h).2.1⟩
    | ok =>
      have h' : (getJob (updateRoomServer st
          { rs with currentLoad := rs.currentLoad - 1 }) job.jobId).isSome = true := by
        rw [getJob_updateRoomServer]; exact h
      exact Or.inl ⟨_, (stopComplete_spec _ job now _ h').1,
        (stopComplete_spec _ job now _ h').2.1⟩
    | notOk =>
      have h' : (getJob (updateRoomServer st rs) job.jobId).isSome = true := by
        rw [getJob_updateRoomServer]; exact h
      exact Or.inl ⟨_, (stopComplete_spec _ job now _ h').1,
        (stopComplete_spec _ job now _ h').2.1⟩

/-- `stopDistributedRecording` on a job found in the active map always
leaves that job terminal with `endTime = now`: `completed` when the
try-block succeeds, `failed` carrying the thrown message otherwise —
regardless of the job's prior status. -/
theorem stopDistributedRecording_spec (st : OrchState) (jobId : String)
    (nodeResp fwdResp : RpcResult) (now : Nat) (job : Job)
    (h : activeGet st jobId = some job) :
    (∃ s, (stopDistributedRecording st jobId nodeResp fwdResp now).outcome = .ok s
        ∧ getJob (stopDistributedRecording st jobId nodeResp fwdResp now).state jobId
          = some { job with status := JobStatus.completed, endTime := some now })
    ∨ (∃ m, (stopDistributedRecording st jobId nodeResp fwdResp now).outcome = .error m
        ∧ getJob (stopDistributedRecording st jobId nodeResp fwdResp now).state jobId
          = some { job with status := JobStatus.failed, errorMessage := some m,
                            endTime := some now }) := by
  obtain ⟨hj, hc⟩ := activeGet_eq_some st jobId job h
  have hid := getJob_id st jobId job hj
  subst hid
  have hsome : (getJob st job.jobId).isSome = true := by rw [hj]; rfl
  have heq : stopDistributedRecording st job.jobId nodeResp fwdResp now
      = match st.ffmpegNodes.find? (fun n => n.id == job.ffmpegNodeId) with
        | some node =>
          match stopRecordingOnNode job node nodeResp with
          | .error m =>
            stopCatch st job m now [Effect.stopRecordingRpc node.url job.jobId]
          | .ok node2 =>
            stopAfterNode (updateNode st node2) job fwdResp now
              [Effect.stopRecordingRpc node.url job.jobId]
        | none => stopAfterNode st job fwdResp now [] := by
    unfold stopDistributedRecording
    rw [h]
  rw [heq]
  cases hn : st.ffmpegNodes.find? (fun n => n.id == job.ffmpegNodeId) with
  | none => exact stopAfterNode_spec st job fwdResp now [] hsome
  | some node =>
    cases nodeResp with
    | threw m =>
      exact Or.inr ⟨m, (stopCatch_spec st job m now _ hsome).1,
        (stopCatch_spec st job m now _ hsome).2.1⟩
    | ok =>
      have h' : (getJob (updateNode st
          { node with currentLoad := node.currentLoad - 1,
                      activeJobs := node.activeJobs.filter
                        (fun id => id != job.jobId) }) job.jobId).isSome = true := by
        rw [getJob_updateNode]; exact hsome
      exact stopAfterNode_spec _ job fwdResp now _ h'
    | notOk =>
      have h' : (getJob (updateNode st node) job.jobId).isSome = true := by
        rw [getJob_updateNode]; exact hsome
      exact stopAfterNode_spec _ job fwdResp now _ h'

/-! ### Lemmas about the room-server failure handler -/

/-- Elements of the affected-jobs list are live in the heap and satisfy
the filter (rooted at the server, status `recording`). -/
theorem mem_affectedByRoomServer (st : OrchState) (rsId : String) (j : Job)
    (h : j ∈ affectedByRoomServer st rsId) :
    getJob st j.jobId = some j
    ∧ (j.roomServerId == rsId && j.status == JobStatus.recording) = true := by
  unfold affectedByRoomServer at h
  rw [List.mem_filter] at h
  obtain ⟨hmem, hfil⟩ := h
  rw [List.mem_filterMap] at hmem
  obtain ⟨i, hi, hg⟩ := hmem
  have hid := getJob_id st i j hg
  rw [hid]
  exact ⟨hg, hfil⟩

/-- The loop body never touches the room-server registry. -/
theorem failJobStep_roomServers (now : Nat) (stopResp : String → RpcResult)
    (acc : OrchState × List Effect) (j : Job) :
    (failJobStep now stopResp acc j).1.roomServers = acc.1.roomServers := by
  unfold failJobStep
  split
  · split
    · rfl
    · rfl
  · rfl

/-- The loop body leaves other jobs alone. -/
theorem failJobStep_getJob_ne (now : Nat) (stopResp : String → RpcResult)
    (acc : OrchState × List Effect) (j : Job) (id : String) (hne : j.jobId ≠ id) :
    getJob (failJobStep now stopResp acc j).1 id = getJob acc.1 id := by
  unfold failJobStep
  split
  · split
    · rw [getJob_updateNode]
      exact getJob_updateJob_ne acc.1 _ id hne
    · exact getJob_updateJob_ne acc.1 _ id hne
  · exact getJob_updateJob_ne acc.1 _ id hne

/-- The loop body writes the failed version of its job. -/
theorem failJobStep_getJob_self (now : Nat) (stopResp : String → RpcResult)
    (acc : OrchState × List Effect) (j : Job)
    (h : (getJob acc.1 j.jobId).isSome = true) :
    getJob (failJobStep now stopResp acc j).1 j.jobId = some (failedJobVer j now) := by
  unfold failJobStep
  split
  · split
    · rw [getJob_updateNode]
      exact getJob_updateJob acc.1 _ j.jobId rfl h
    · exact getJob_updateJob acc.1 _ j.jobId rfl h
  · exact getJob_updateJob acc.1 _ j.jobId rfl h

/-- Folding the loop body over jobs with other identifiers leaves a job
alone. -/
theorem foldl_failJobStep_getJob_ne (now : Nat) (stopResp : String → RpcResult)
    (js : List Job) (acc : OrchState × List Effect) (id : String)
    (h : ∀ k ∈ js, k.jobId ≠ id) :
    getJob (js.foldl (failJobStep now stopResp) acc).1 id = getJob acc.1 id := by
  induction js generalizing acc with
  | nil => rfl
  | cons j js ih =>
    rw [List.foldl_cons, ih _ (fun k hk => h k (List.mem_cons_of_mem j hk))]
    exact failJobStep_getJob_ne now stopResp acc j id (h j (List.mem_cons_self j js))

/-- Once the failed version is written, the rest of the fold keeps it
(any duplicate entry rewrites the same value). -/
theorem foldl_failJobStep_preserve (now : Nat) (stopResp : String → RpcResult)
    (js : List Job) (acc : OrchState × List Effect) (j : Job)
    (huniq : ∀ k ∈ js, k.jobId = j.jobId → k = j)
    (hcur : getJob acc.1 j.jobId = some (failedJobVer j now)) :
    getJob (js.foldl (failJobStep now stopResp) acc).1 j.jobId
      = some (failedJobVer j now) := by
  induction js generalizing acc with
  | nil => exact hcur
  | cons k ks ih =>
    rw [List.foldl_cons]
    by_cases hk : k.jobId = j.jobId
    · have hkj : k = j := huniq k (List.mem_cons_self k ks) hk
      subst hkj
      have h1 : getJob (failJobStep now stopResp acc k).1 k.jobId
          = some (failedJobVer k now) :=
        failJobStep_getJob_self now stopResp acc k (by rw [hcur]; rfl)
      exact ih _ (fun m hm => huniq m (List.mem_cons_of_mem k hm)) h1
    · have h1 : getJob (failJobStep now stopResp acc k).1 j.jobId
          = some (failedJobVer j now) := by
        rw [failJobStep_getJob_ne now stopResp acc k j.jobId hk]; exact hcur
      exact ih _ (fun m hm => huniq m (List.mem_cons_of_mem k hm)) h1

/-- Every affected job ends up failed after the fold. -/
theorem foldl_failJobStep_sets (now : Nat) (stopResp : String → RpcResult)
    (js : List Job) (acc : OrchState × List Effect) (j : Job)
    (hmem : j ∈ js)
    (huniq : ∀ k ∈ js, k.jobId = j.jobId → k = j)
    (hcur : getJob acc.1 j.jobId = some j) :
    getJob (js.foldl (failJobStep now stopResp) acc).1 j.jobId
      = some (failedJobVer j now) := by
  induction js generalizing acc with
  | nil => cases hmem
  | cons k ks ih =>
    rw [List.foldl_cons]
    by_cases hk : k.jobId = j.jobId
    · have hkj : k = j := huniq k (List.mem_cons_self k ks) hk
      subst hkj
      have h1 : getJob (failJobStep now stopResp acc k).1 k.jobId
          = some (failedJobVer k now) :=
        failJobStep_getJob_self now stopResp acc k (by rw [hcur]; rfl)
      exact foldl_failJobStep_preserve now stopResp ks _ k
        (fun m hm => huniq m (List.mem_cons_of_mem k hm)) h1
    · have hmem' : j ∈ ks := by
        cases List.mem_cons.mp hmem with
        | inl h => exact absurd (congrArg Job.jobId h.symm) hk
        | inr h => exact h
      apply ih _ hmem' (fun m hm => huniq m (List.mem_cons_of_mem k hm))
      rw [failJobStep_getJob_ne now stopResp acc k j.jobId hk]
      exact hcur

/-- The loop body only appends to the effect trace. -/
theorem failJobStep_effects_mono (now : Nat) (stopResp : String → RpcResult)
    (acc : OrchState × List Effect) (j : Job) (e : Effect) (h : e ∈ acc.2) :
    e ∈ (failJobStep now stopResp acc j).2 := by
  unfold failJobStep
  split
  · split
    · exact List.mem_append_left _ h
    · exact List.mem_append_left _ h
  · exact h

theorem foldl_failJobStep_effects_mono (now : Nat) (stopResp : String → RpcResult)
    (js : List Job) (acc : OrchState × List Effect) (e : Effect) (h : e ∈ acc.2) :
    e ∈ (js.foldl (failJobStep now stopResp) acc).2 := by
  induction js generalizing acc with
  | nil => exact h
  | cons k ks ih => exact ih _ (failJobStep_effects_mono now stopResp acc k e h)

/-- When the job's recorder resolves, the loop body emits the
best-effort stop call to it. -/
theorem failJobStep_effects_self (now : Nat) (stopResp : String → RpcResult)
    (acc : OrchState × List Effect) (j : Job) (node : FFmpegNode)
    (hfind : acc.1.ffmpegNodes.find? (fun n => n.id == j.ffmpegNodeId) = some node) :
    (failJobStep now stopResp acc j).2
      = acc.2 ++ [Effect.stopRecordingRpc node.url j.jobId] := by
  unfold failJobStep
  split
  · rename_i node2 heq
    rw [hfind] at heq
    injection heq with heq2
    subst heq2
    split
    · rfl
    · rfl
  · rename_i heq
    rw [hfind] at heq
    exact Option.noConfusion heq

/-- Recorder URL lookups survive a stop-accounting write. -/
theorem nodeUrl_updateNode_stop (st : OrchState) (node node2 : FFmpegNode) (nid : String)
    (hid : node2.id = node.id) (hurl : node2.url = node.url)
    (hfind : st.ffmpegNodes.find? (fun n => n.id == node.id) = some node) :
    nodeUrl (updateNode st node2) nid = nodeUrl st nid := by
  unfold nodeUrl updateNode
  by_cases hn : node2.id = nid
  · have hfind' : st.ffmpegNodes.find? (fun n => n.id == nid) = some node := by
      rw [← hn, hid]; exact hfind
    rw [find?_updateBy FFmpegNode.id node2 st.ffmpegNodes nid hn (by rw [hfind']; rfl),
      hfind']
    rw [Option.map_some', Option.map_some', hurl]
  · rw [find?_updateBy_ne FFmpegNode.id node2 st.ffmpegNodes nid hn]

/-- The loop body never changes which URL a recorder identifier resolves
to. -/
theorem failJobStep_nodeUrl (now : Nat) (stopResp : String → RpcResult)
    (acc : OrchState × List Effect) (j : Job) (nid : String) :
    nodeUrl (failJobStep now stopResp acc j).1 nid = nodeUrl acc.1 nid := by
  unfold failJobStep
  split
  · rename_i node heq
    have hnodeid : node.id = j.ffmpegNodeId :=
      beq_iff_eq.mp
        (@List.find?_some FFmpegNode (fun n => n.id == j.ffmpegNodeId) node
          acc.1.ffmpegNodes heq)
    have hfind2 : acc.1.ffmpegNodes.find? (fun n => n.id == node.id) = some node := by
      rw [hnodeid]; exact heq
    split
    · rename_i node2 heq2
      have hprops : node2.id = node.id ∧ node2.url = node.url := by
        cases hresp : stopResp j.jobId with
        | threw m =>
          rw [hresp] at heq2
          exact Except.noConfusion heq2
        | ok =>
          rw [hresp] at heq2
          unfold stopRecordingOnNode at heq2
          injection heq2 with heq3
          subst heq3
          exact ⟨rfl, rfl⟩
        | notOk =>
          rw [hresp] at heq2
          unfold stopRecordingOnNode at heq2
          injection heq2 with heq3
          subst heq3
          exact ⟨rfl, rfl⟩
      exact nodeUrl_updateNode_stop (updateJob acc.1 (failedJobVer j now)) node node2
        nid hprops.1 hprops.2 hfind2
    · rfl
  · rfl

theorem foldl_failJobStep_nodeUrl (now : Nat) (stopResp : String → RpcResult)
    (js : List Job) (acc : OrchState × List Effect) (nid : String) :
    nodeUrl (js.foldl (failJobStep now stopResp) acc).1 nid = nodeUrl acc.1 nid := by
  induction js generalizing acc with
  | nil => rfl
  | cons k ks ih => rw [List.foldl_cons, ih, failJobStep_nodeUrl]

/-- The fold emits the best-effort stop for every affected job whose
recorder resolves. -/
theorem foldl_failJobStep_emits (now : Nat) (stopResp : String → RpcResult)
    (js : List Job) (acc : OrchState × List Effect) (j : Job) (u : String)
    (hmem : j ∈ js) (hurl : nodeUrl acc.1 j.ffmpegNodeId = some u) :
    Effect.stopRecordingRpc u j.jobId ∈ (js.foldl (failJobStep now stopResp) acc).2 := by
  induction js generalizing acc with
  | nil => cases hmem
  | cons k ks ih =>
    rw [List.foldl_cons]
    cases List.mem_cons.mp hmem with
    | inr h => exact ih _ h (by rw [failJobStep_nodeUrl]; exact hurl)
    | inl h =>
      subst h
      obtain ⟨node, hfind, hu⟩ :
          ∃ node, acc.1.ffmpegNodes.find? (fun n => n.id == j.ffmpegNodeId) = some node
            ∧ node.url = u := by
        unfold nodeUrl at hurl
        cases hf : acc.1.ffmpegNodes.find? (fun n => n.id == j.ffmpegNodeId) with
        | none => rw [hf] at hurl; cases hurl
        | some node =>
          rw [hf, Option.map_some'] at hurl
          exact ⟨node, rfl, by cases hurl; rfl⟩
      apply foldl_failJobStep_effects_mono
      rw [failJobStep_effects_self now stopResp acc j node hfind, hu]
      exact List.mem_append_right _ (List.mem_singleton_self _)

theorem foldl_failJobStep_roomServers (now : Nat) (stopResp : String → RpcResult)
    (js : List Job) (acc : OrchState × List Effect) :
    (js.foldl (failJobStep now stopResp) acc).1.roomServers = acc.1.roomServers := by
  induction js generalizing acc with
  | nil => rfl
  | cons k ks ih => rw [List.foldl_cons, ih, failJobStep_roomServers]

/-- Marking a room server unhealthy clears exactly its health flag. -/
theorem markRoomServerUnhealthy_spec (st : OrchState) (rsId : String) :
    ∀ r ∈ (markRoomServerUnhealthy st rsId).roomServers, r.id = rsId → r.isHealthy = false := by
  intro r hr hid
  unfold markRoomServerUnhealthy at hr
  simp only [List.mem_map] at hr
  obtain ⟨k, hk, hkr⟩ := hr
  by_cases hcase : (k.id == rsId) = true
  · rw [if_pos hcase] at hkr
    rw [← hkr]
  · rw [if_neg hcase] at hkr
    subst hkr
    exact absurd (beq_iff_eq.mpr hid) hcase

/-! ### Claim theorems -/

/-- C1: on recorder failover the source builds the placement requirement
from `job.peerInfo.displayName || 'default'`, not from the original room
server's region, as the spec prescribes.  Evaluated on a recording job
for peer "Alice" whose room server `rs1` sits in `us-east-1`: the
requirement's region is "Alice". -/
theorem C1_reassignment_region_bug :
    (reassignRequirements exJobRec).region = "Alice"
    ∧ exJobRec.roomServerId = exRoomServer.id
    ∧ exRoomServer.region = "us-east-1"
    ∧ (reassignRequirements exJobRec).region ≠ exRoomServer.region := by
  refine ⟨rfl, rfl, rfl, ?_⟩
  decide

/-- C2 counterexample: the invariant `|activeJobs| = currentLoad` holds
on a recorder with one job, but a heartbeat reporting `currentLoad = 0`
(falsy, so the old load 1 is kept) and `activeJobs = []` (truthy, so the
list is emptied) breaks it. -/
theorem C2_load_invariant_counterexample :
    loadInvariant nodeC2
    ∧ ¬ loadInvariant (applyFFmpegHeartbeat nodeC2
        { currentLoad := some 0, activeJobs := some [] } 1000) := by
  exact ⟨by decide, by decide⟩

/-- C2 (amended): the equality `|activeJobs| = currentLoad` is
established by registration and preserved by assignment (both branches)
and by a recorder-side stop of a job listed exactly once; a stop whose
RPC throws or returns non-2xx changes nothing; but a heartbeat installs
the reported values independently (keeping the old load when the
reported one is absent or zero), so after a heartbeat the invariant
holds exactly when the effective reported list length equals the
effective reported load. -/
theorem C2_load_invariant_amended :
    (∀ nodeId now reg, loadInvariant (registerFFmpegNode nodeId now reg))
    ∧ (∀ job node rs oracle, loadInvariant node →
        loadInvariant (assignJobToNode job node rs oracle).node)
    ∧ (∀ job node node2, loadInvariant node → node.activeJobs.count job.jobId = 1 →
        stopRecordingOnNode job node RpcResult.ok = .ok node2 → loadInvariant node2)
    ∧ (∀ job node m, stopRecordingOnNode job node (RpcResult.threw m) = .error m)
    ∧ (∀ job node, stopRecordingOnNode job node RpcResult.notOk = .ok node)
    ∧ (∀ node data now, loadInvariant (applyFFmpegHeartbeat node data now) ↔
        (effectiveJobs node data).length = effectiveLoad node data) := by
  refine ⟨?_, ?_, ?_, ?_, ?_, ?_⟩
  · intro nodeId now reg; rfl
  · intro job node rs oracle h
    rcases oracle with ⟨a, f, s⟩
    unfold assignJobToNode
    cases a with
    | error m => exact h
    | ok ports =>
      cases f with
      | error m => exact h
      | ok u =>
        cases s with
        | error m => exact h
        | ok u2 =>
          show (node.activeJobs ++ [job.jobId]).length = node.currentLoad + 1
          rw [List.length_append, h]
          rfl
  · intro job node node2 h hcount heq
    unfold stopRecordingOnNode at heq
    injection heq with heq2
    subst heq2
    show (node.activeJobs.filter (fun id => id != job.jobId)).length
      = node.currentLoad - 1
    rw [length_filter_ne, hcount, h]
  · intro job node m; rfl
  · intro job node; rfl
  · intro node data now; exact Iff.rfl

/-- Witness for C2 (amended), at concrete inputs: a fresh registration,
a successful assignment onto `nodeC2`, a recorder-side stop of `j1`, and
a consistent heartbeat. -/
theorem C2_load_invariant_amended_witness :
    loadInvariant (registerFFmpegNode "n9" 5
      { url := "http://n9", region := "us-east-1", specs := exSpecs, supportedCodecs := none })
    ∧ loadInvariant (assignJobToNode exJob nodeC2 exRoomServer oracleOk).node
    ∧ loadInvariant nodeC2stopped
    ∧ loadInvariant (applyFFmpegHeartbeat nodeC2
        { currentLoad := some 2, activeJobs := some ["a", "b"] } 7) :=
  ⟨C2_load_invariant_amended.1 "n9" 5 _,
   C2_load_invariant_amended.2.1 exJob nodeC2 exRoomServer oracleOk (by decide),
   C2_load_invariant_amended.2.2.1 exJob nodeC2 nodeC2stopped (by decide) (by decide)
     (by rfl),
   (C2_load_invariant_amended.2.2.2.2.2 nodeC2
     { currentLoad := some 2, activeJobs := some ["a", "b"] } 7).mpr (by decide)⟩

/-- C9: the derived recorder capacity of `calculateNodeCapacity` equals
the spec's formula `min(cores * 1.5 * (hasGPU ? 2 : 1),
floor(RAM / (500 * 2^20)), 12)` for every hardware descriptor, and the
spec's example (4 cores, 8 GiB, no GPU) yields 6. -/
theorem C9_derived_capacity :
    (∀ specs : NodeSpecs, calculateNodeCapacity specs = capacitySpecFormula specs)
    ∧ calculateNodeCapacity exSpecs = 6 := by
  constructor
  · intro specs
    unfold calculateNodeCapacity capacitySpecFormula
    cases h : specs.hasGPU with
    | true => simp [h]
    | false => simp [h, mul_one]
  · norm_num [calculateNodeCapacity, exSpecs, ratMin]

/-- C5 counterexample: when `start-recording` fails after ports were
allocated and RTP forwarding was configured, the assignment catch-block
marks the job failed with the upstream error but emits neither a port
release nor a stop-forwarding call — no reversal is attempted. -/
theorem C5_no_rollback_counterexample :
    (assignJobToNode exJob exNode exRoomServer oracleStartFails).success = false
    ∧ (assignJobToNode exJob exNode exRoomServer oracleStartFails).job.status
      = JobStatus.failed
    ∧ (assignJobToNode exJob exNode exRoomServer oracleStartFails).job.errorMessage
      = some "Failed to start recording on FFmpeg node: Internal Server Error"
    ∧ (assignJobToNode exJob exNode exRoomServer oracleStartFails).job.rtpForwarding.isSome
      = true
    ∧ (assignJobToNode exJob exNode exRoomServer oracleStartFails).effects.contains
        (Effect.configureForwardingRpc "http://rs1" "j1") = true
    ∧ (assignJobToNode exJob exNode exRoomServer oracleStartFails).effects.all
        (fun e => !e.isRelease && !e.isStopForwarding) = true := by
  exact ⟨by decide, by decide, by decide, by decide, by decide, by decide⟩

/-- C5 (amended): whenever any assignment step fails, the job transitions
to `failed` with the upstream error as its description, but no reversal
is attempted: the emitted trace never contains a port release or a
stop-forwarding call. -/
theorem C5_assign_failure_amended :
    ∀ job node rs oracle m, assignError oracle = some m →
      (assignJobToNode job node rs oracle).success = false
      ∧ (assignJobToNode job node rs oracle).job.status = JobStatus.failed
      ∧ (assignJobToNode job node rs oracle).job.errorMessage = some m
      ∧ (assignJobToNode job node rs oracle).effects.all
          (fun e => !e.isRelease && !e.isStopForwarding) = true := by
  intro job node rs oracle m h
  rcases oracle with ⟨a, f, s⟩
  unfold assignError at h
  unfold assignJobToNode
  cases a with
  | error m2 =>
    cases h
    exact ⟨rfl, rfl, rfl, rfl⟩
  | ok ports =>
    cases f with
    | error m2 =>
      cases h
      exact ⟨rfl, rfl, rfl, rfl⟩
    | ok u =>
      cases s with
      | error m2 =>
        cases h
        exact ⟨rfl, rfl, rfl, rfl⟩
      | ok u2 => cases h

/-- Witness for C5 (amended): the start-recording failure oracle. -/
theorem C5_assign_failure_amended_witness :
    (assignJobToNode exJob exNode exRoomServer oracleStartFails).success = false
    ∧ (assignJobToNode exJob exNode exRoomServer oracleStartFails).job.status
      = JobStatus.failed
    ∧ (assignJobToNode exJob exNode exRoomServer oracleStartFails).job.errorMessage
      = some "Failed to start recording on FFmpeg node: Internal Server Error"
    ∧ (assignJobToNode exJob exNode exRoomServer oracleStartFails).effects.all
        (fun e => !e.isRelease && !e.isStopForwarding) = true :=
  C5_assign_failure_amended exJob exNode exRoomServer oracleStartFails
    "Failed to start recording on FFmpeg node: Internal Server Error" rfl

/-- C4: stopping an already-terminal job is not a no-op in the source.
A `failed` job still in the active map (the source never removes failed
jobs) gets a stop-recording RPC re-emitted, its recorder's load counter
decremented, and its status rewritten to `completed`; a `completed` job
was removed from the map, so stopping it throws not-found instead of
returning the stored outcome. -/
theorem C4_stop_after_terminal_code_bug :
    jobC4.status.isTerminal = true
    ∧ (stopDistributedRecording stateC4 "j4" RpcResult.ok RpcResult.ok 900).effects.contains
        (Effect.stopRecordingRpc "http://n1" "j4") = true
    ∧ ((stopDistributedRecording stateC4 "j4" RpcResult.ok RpcResult.ok 900).state.ffmpegNodes.find?
        (fun n => n.id == "n1")).map FFmpegNode.currentLoad = some 0
    ∧ (stateC4.ffmpegNodes.find? (fun n => n.id == "n1")).map FFmpegNode.currentLoad = some 1
    ∧ (getJob (stopDistributedRecording stateC4 "j4" RpcResult.ok RpcResult.ok 900).state "j4").map
        Job.status = some JobStatus.completed
    ∧ jobC4b.status.isTerminal = true
    ∧ (stopDistributedRecording stateC4 "j5" RpcResult.ok RpcResult.ok 900).outcome
      = Except.error "Recording job j5 not found" := by
  refine ⟨rfl, by decide, by decide, by decide, by decide, rfl, by rfl⟩

/-- C3 counterexample: an assignment failure leaves the job `failed`
(terminal) with `endTime` unset, violating "endTime is set iff the
status is terminal". -/
theorem C3_endTime_counterexample :
    (assignJobToNode exJob exNode exRoomServer oracleStartFails).job.status.isTerminal = true
    ∧ (assignJobToNode exJob exNode exRoomServer oracleStartFails).job.endTime = none
    ∧ ¬ endTimeConsistent (assignJobToNode exJob exNode exRoomServer oracleStartFails).job := by
  exact ⟨by decide, by decide, by decide⟩

/-- C3 (amended): dispatch transitions follow the graph on the success
path (`pending → initializing → recording`, `endTime` untouched), but
(i) an assignment failure moves the job to `failed` without stamping
`endTime`; (ii) `stopDistributedRecording` moves any found job to
`completed` (success) or `failed` (thrown error) with `endTime` stamped,
regardless of the prior status — taking the illegal edges
`pending → completed` and `completed → completed` among others; and
(iii) recorder failover resets a recording job to `pending` (an illegal
edge) before reassigning, or fails it with `endTime` stamped when no
recorder is available. -/
theorem C3_transition_discipline_amended :
    (∀ job node rs ports,
      (assignJobToNode job node rs
        { allocPorts := .ok ports, forward := .ok (), start := .ok () }).job.status
        = JobStatus.recording
      ∧ (assignJobToNode job node rs
          { allocPorts := .ok ports, forward := .ok (), start := .ok () }).job.endTime
        = job.endTime)
    ∧ (∀ job node rs oracle m, assignError oracle = some m →
        (assignJobToNode job node rs oracle).job.status = JobStatus.failed
        ∧ (assignJobToNode job node rs oracle).job.endTime = job.endTime)
    ∧ (∀ st jobId nodeResp fwdResp now job, activeGet st jobId = some job →
        (∃ s, (stopDistributedRecording st jobId nodeResp fwdResp now).outcome = .ok s
          ∧ getJob (stopDistributedRecording st jobId nodeResp fwdResp now).state jobId
            = some { job with status := JobStatus.completed, endTime := some now })
        ∨ (∃ m, (stopDistributedRecording st jobId nodeResp fwdResp now).outcome = .error m
          ∧ getJob (stopDistributedRecording st jobId nodeResp fwdResp now).state jobId
            = some { job with status := JobStatus.failed, errorMessage := some m,
                              endTime := some now }))
    ∧ (∀ job, (failoverPendingJob job).status = JobStatus.pending)
    ∧ (∀ job now, (failoverFailJob job now).status = JobStatus.failed
        ∧ (failoverFailJob job now).endTime = some now)
    ∧ (legalEdge JobStatus.pending JobStatus.initializing = true
        ∧ legalEdge JobStatus.initializing JobStatus.recording = true
        ∧ legalEdge JobStatus.initializing JobStatus.failed = true
        ∧ legalEdge JobStatus.recording JobStatus.failed = true
        ∧ legalEdge JobStatus.recording JobStatus.pending = false
        ∧ legalEdge JobStatus.pending JobStatus.completed = false
        ∧ ∀ s t, s.isTerminal = true → legalEdge s t = false) := by
  refine ⟨?_, ?_, ?_, ?_, ?_, ?_⟩
  · intro job node rs ports
    exact ⟨rfl, rfl⟩
  · intro job node rs oracle m h
    rcases oracle with ⟨a, f, s⟩
    unfold assignError at h
    unfold assignJobToNode
    cases a with
    | error m2 => cases h; exact ⟨rfl, rfl⟩
    | ok ports =>
      cases f with
      | error m2 => cases h; exact ⟨rfl, rfl⟩
      | ok u =>
        cases s with
        | error m2 => cases h; exact ⟨rfl, rfl⟩
        | ok u2 => cases h
  · intro st jobId nodeResp fwdResp now job h
    exact stopDistributedRecording_spec st jobId nodeResp fwdResp now job h
  · intro job; rfl
  · intro job now; exact ⟨rfl, rfl⟩
  · refine ⟨rfl, rfl, rfl, rfl, rfl, rfl, ?_⟩
    intro s t hs
    cases s <;> first | rfl | cases hs

/-- Witness for C3 (amended): a successful assignment, a failed
assignment, and a stop of the recording job `j6`. -/
theorem C3_transition_discipline_amended_witness :
    ((assignJobToNode exJob exNode exRoomServer
        { allocPorts := .ok [5000, 5002], forward := .ok (), start := .ok () }).job.status
      = JobStatus.recording
      ∧ (assignJobToNode exJob exNode exRoomServer
          { allocPorts := .ok [5000, 5002], forward := .ok (), start := .ok () }).job.endTime
        = exJob.endTime)
    ∧ ((assignJobToNode exJob exNode exRoomServer oracleStartFails).job.status
        = JobStatus.failed
      ∧ (assignJobToNode exJob exNode exRoomServer oracleStartFails).job.endTime
        = exJob.endTime)
    ∧ ((∃ s, (stopDistributedRecording stateC6 "j6" RpcResult.ok RpcResult.ok 800).outcome
          = .ok s
        ∧ getJob (stopDistributedRecording stateC6 "j6" RpcResult.ok RpcResult.ok 800).state "j6"
          = some { jobC6 with status := JobStatus.completed, endTime := some 800 })
      ∨ (∃ m, (stopDistributedRecording stateC6 "j6" RpcResult.ok RpcResult.ok 800).outcome
          = .error m
        ∧ getJob (stopDistributedRecording stateC6 "j6" RpcResult.ok RpcResult.ok 800).state "j6"
          = some { jobC6 with status := JobStatus.failed, errorMessage := some m,
                              endTime := some 800 })) :=
  ⟨C3_transition_discipline_amended.1 exJob exNode exRoomServer [5000, 5002],
   C3_transition_discipline_amended.2.1 exJob exNode exRoomServer oracleStartFails
     "Failed to start recording on FFmpeg node: Internal Server Error" rfl,
   C3_transition_discipline_amended.2.2.1 stateC6 "j6" RpcResult.ok RpcResult.ok 800 jobC6
     (by decide)⟩

/-- Reduction of `stopDistributedRecording` once the job lookup hits. -/
theorem stopDistributedRecording_found (st : OrchState) (job : Job)
    (nodeResp fwdResp : RpcResult) (now : Nat)
    (h : activeGet st job.jobId = some job) :
    stopDistributedRecording st job.jobId nodeResp fwdResp now
      = match st.ffmpegNodes.find? (fun n => n.id == job.ffmpegNodeId) with
        | some node =>
          match stopRecordingOnNode job node nodeResp with
          | .error m => stopCatch st job m now [Effect.stopRecordingRpc node.url job.jobId]
          | .ok node2 => stopAfterNode (updateNode st node2) job fwdResp now
              [Effect.stopRecordingRpc node.url job.jobId]
        | none => stopAfterNode st job fwdResp now [] := by
  unfold stopDistributedRecording
  rw [h]

/-- The room-server half of the stop path never touches the recorder
registry. -/
theorem stopAfterNode_ffmpegNodes (st : OrchState) (job : Job) (fwdResp : RpcResult)
    (now : Nat) (effs : List Effect) :
    (stopAfterNode st job fwdResp now effs).state.ffmpegNodes = st.ffmpegNodes := by
  unfold stopAfterNode
  split
  · split
    · rfl
    · rfl
  · rfl

/-- C6 counterexample: when the recorder's stop RPC throws, the job does
transition to `failed`, but local accounting is NOT released: the
recorder still counts the job (`currentLoad` 1, `activeJobs = [j6]`) and
the job stays in the active map. -/
theorem C6_stop_failure_counterexample :
    (stopDistributedRecording stateC6 "j6" (RpcResult.threw "connect ECONNREFUSED")
        RpcResult.ok 900).outcome = Except.error "connect ECONNREFUSED"
    ∧ (getJob (stopDistributedRecording stateC6 "j6" (RpcResult.threw "connect ECONNREFUSED")
        RpcResult.ok 900).state "j6").map Job.status = some JobStatus.failed
    ∧ ((stopDistributedRecording stateC6 "j6" (RpcResult.threw "connect ECONNREFUSED")
        RpcResult.ok 900).state.ffmpegNodes.find? (fun n => n.id == "n1")).map
        FFmpegNode.currentLoad = some 1
    ∧ ((stopDistributedRecording stateC6 "j6" (RpcResult.threw "connect ECONNREFUSED")
        RpcResult.ok 900).state.ffmpegNodes.find? (fun n => n.id == "n1")).map
        FFmpegNode.activeJobs = some ["j6"]
    ∧ (stopDistributedRecording stateC6 "j6" (RpcResult.threw "connect ECONNREFUSED")
        RpcResult.ok 900).state.activeJobIds = ["j6"] := by
  refine ⟨by rfl, by decide, by decide, by decide, by decide⟩

/-- C6 (amended): when the recorder's stop RPC throws, the job becomes
`failed` with `endTime` stamped and the error recorded, but the
recorder registry and the active map are left untouched; the recorder's
load is decremented (`Nat` subtraction models the clamp at zero) and the
job filtered out of its active list exactly when the stop RPC returns
2xx, and nothing changes on a non-2xx response. -/
theorem C6_stop_accounting_amended :
    ∀ st jobId job node m fwdResp now,
      activeGet st jobId = some job →
      st.ffmpegNodes.find? (fun n => n.id == job.ffmpegNodeId) = some node →
      (((stopDistributedRecording st jobId (RpcResult.threw m) fwdResp now).outcome
          = Except.error m)
        ∧ getJob (stopDistributedRecording st jobId (RpcResult.threw m) fwdResp now).state jobId
          = some { job with status := JobStatus.failed, errorMessage := some m,
                            endTime := some now }
        ∧ (stopDistributedRecording st jobId (RpcResult.threw m) fwdResp now).state.ffmpegNodes
          = st.ffmpegNodes
        ∧ (stopDistributedRecording st jobId (RpcResult.threw m) fwdResp now).state.activeJobIds
          = st.activeJobIds)
      ∧ ((stopDistributedRecording st jobId RpcResult.ok fwdResp now).state.ffmpegNodes.find?
            (fun n => n.id == job.ffmpegNodeId)
          = some { node with currentLoad := node.currentLoad - 1,
                             activeJobs := node.activeJobs.filter (fun id => id != jobId) })
      ∧ ((stopDistributedRecording st jobId RpcResult.notOk fwdResp now).state.ffmpegNodes.find?
            (fun n => n.id == job.ffmpegNodeId) = some node) := by
  intro st jobId job node m fwdResp now h hn
  obtain ⟨hj, hcon⟩ := activeGet_eq_some st jobId job h
  have hid := getJob_id st jobId job hj
  subst hid
  have hsome : (getJob st job.jobId).isSome = true := by rw [hj]; rfl
  have hnid : node.id = job.ffmpegNodeId :=
    beq_iff_eq.mp (@List.find?_some FFmpegNode _ node st.ffmpegNodes hn)
  have hnsome : (st.ffmpegNodes.find? (fun n => n.id == job.ffmpegNodeId)).isSome = true := by
    rw [hn]; rfl
  refine ⟨?_, ?_, ?_⟩
  · rw [stopDistributedRecording_found st job (RpcResult.threw m) fwdResp now h, hn]
    exact ⟨(stopCatch_spec st job m now _ hsome).1,
      (stopCatch_spec st job m now _ hsome).2.1,
      (stopCatch_spec st job m now _ hsome).2.2.1,
      (stopCatch_spec st job m now _ hsome).2.2.2.1⟩
  · rw [stopDistributedRecording_found st job RpcResult.ok fwdResp now h, hn]
    show (stopAfterNode (updateNode st { node with currentLoad := node.currentLoad - 1, activeJobs := node.activeJobs.filter (fun id => id != job.jobId) }) job fwdResp now [Effect.stopRecordingRpc node.url job.jobId]).state.ffmpegNodes.find? (fun n => n.id == job.ffmpegNodeId) = some { node with currentLoad := node.currentLoad - 1, activeJobs := node.activeJobs.filter (fun id => id != job.jobId) }
    rw [stopAfterNode_ffmpegNodes]
    exact find?_updateBy FFmpegNode.id _ st.ffmpegNodes job.ffmpegNodeId hnid hnsome
  · rw [stopDistributedRecording_found st job RpcResult.notOk fwdResp now h, hn]
    show (stopAfterNode (updateNode st node) job fwdResp now
        [Effect.stopRecordingRpc node.url job.jobId]).state.ffmpegNodes.find?
        (fun n => n.id == job.ffmpegNodeId) = some node
    rw [stopAfterNode_ffmpegNodes]
    exact find?_updateBy FFmpegNode.id node st.ffmpegNodes job.ffmpegNodeId hnid hnsome

/-- Witness for C6 (amended) at the concrete state `stateC6`. -/
theorem C6_stop_accounting_amended_witness :
    (stopDistributedRecording stateC6 "j6" (RpcResult.threw "boom") RpcResult.ok 901).state.ffmpegNodes
      = stateC6.ffmpegNodes
    ∧ ((stopDistributedRecording stateC6 "j6" RpcResult.ok RpcResult.ok 901).state.ffmpegNodes.find?
        (fun n => n.id == jobC6.ffmpegNodeId)
      = some { nodeC6 with currentLoad := nodeC6.currentLoad - 1, activeJobs := nodeC6.activeJobs.filter (fun id => id != "j6") }) :=
  ⟨(C6_stop_accounting_amended stateC6 "j6" jobC6 nodeC6 "boom" RpcResult.ok 901
      (by decide) (by decide)).1.2.2.1,
   (C6_stop_accounting_amended stateC6 "j6" jobC6 nodeC6 "boom" RpcResult.ok 901
      (by decide) (by decide)).2.1⟩

/-- C7 counterexample: with an `initializing` job `j7` and a `recording`
job `j8` both rooted at `rs1`, the room-server failure handler fails
only `j8`; `j7` is left untouched in `initializing`, contrary to the
claim that initializing jobs are included. -/
theorem C7_initializing_counterexample :
    jobC7init.status = JobStatus.initializing
    ∧ (getJob (handleUnhealthyRoomServer stateC7 "rs1" (fun _ => RpcResult.ok) 900).1 "j7").map
        Job.status = some JobStatus.initializing
    ∧ (getJob (handleUnhealthyRoomServer stateC7 "rs1" (fun _ => RpcResult.ok) 900).1 "j8").map
        Job.status = some JobStatus.failed := by
  exact ⟨rfl, by decide, by decide⟩

/-- C7 (amended): the handler clears the room server's health flag,
selects exactly the active jobs rooted at it whose status is
`recording` — initializing jobs are left untouched — and transitions
each selected job to `failed` with reason "Room server became
unhealthy" and `endTime` stamped, emitting a best-effort stop-recording
RPC to the job's recorder whenever that recorder resolves. -/
theorem C7_room_failure_amended :
    ∀ st rsId stopResp now,
      (∀ r ∈ (handleUnhealthyRoomServer st rsId stopResp now).1.roomServers,
          r.id = rsId → r.isHealthy = false)
      ∧ (∀ id job, getJob st id = some job →
          (job.roomServerId == rsId && job.status == JobStatus.recording) = false →
          getJob (handleUnhealthyRoomServer st rsId stopResp now).1 id = getJob st id)
      ∧ (∀ j, j ∈ affectedByRoomServer st rsId →
          getJob (handleUnhealthyRoomServer st rsId stopResp now).1 j.jobId
            = some (failedJobVer j now))
      ∧ (∀ j u, j ∈ affectedByRoomServer st rsId →
          nodeUrl st j.ffmpegNodeId = some u →
          Effect.stopRecordingRpc u j.jobId
            ∈ (handleUnhealthyRoomServer st rsId stopResp now).2) := by
  intro st rsId stopResp now
  have haff : affectedByRoomServer (markRoomServerUnhealthy st rsId) rsId
      = affectedByRoomServer st rsId := rfl
  refine ⟨?_, ?_, ?_, ?_⟩
  · intro r hr hidr
    have hrs : (handleUnhealthyRoomServer st rsId stopResp now).1.roomServers
        = (markRoomServerUnhealthy st rsId).roomServers := by
      unfold handleUnhealthyRoomServer
      exact foldl_failJobStep_roomServers now stopResp _ _
    rw [hrs] at hr
    exact markRoomServerUnhealthy_spec st rsId r hr hidr
  · intro id job hj hfil
    unfold handleUnhealthyRoomServer
    refine Eq.trans (foldl_failJobStep_getJob_ne now stopResp _ _ id ?_) rfl
    intro k hk hkid
    rw [haff] at hk
    obtain ⟨hget, hfilk⟩ := mem_affectedByRoomServer st rsId k hk
    rw [hkid] at hget
    rw [hj] at hget
    cases hget
    rw [hfilk] at hfil
    cases hfil
  · intro j hmem
    unfold handleUnhealthyRoomServer
    apply foldl_failJobStep_sets now stopResp _ _ j
    · rw [haff]; exact hmem
    · intro k hk hkid
      rw [haff] at hk
      obtain ⟨hgetk, _⟩ := mem_affectedByRoomServer st rsId k hk
      obtain ⟨hgetj, _⟩ := mem_affectedByRoomServer st rsId j hmem
      rw [hkid] at hgetk
      rw [hgetj] at hgetk
      cases hgetk
      rfl
    · exact (mem_affectedByRoomServer st rsId j hmem).1
  · intro j u hmem hurl
    unfold handleUnhealthyRoomServer
    apply foldl_failJobStep_emits now stopResp _ _ j u
    · rw [haff]; exact hmem
    · exact hurl

/-- Witness for C7 (amended) at the concrete state `stateC7`. -/
theorem C7_room_failure_amended_witness :
    getJob (handleUnhealthyRoomServer stateC7 "rs1" (fun _ => RpcResult.ok) 900).1 "j8"
      = some (failedJobVer jobC7rec 900)
    ∧ getJob (handleUnhealthyRoomServer stateC7 "rs1" (fun _ => RpcResult.ok) 900).1 "j7"
      = getJob stateC7 "j7"
    ∧ Effect.stopRecordingRpc "http://n1" "j8"
      ∈ (handleUnhealthyRoomServer stateC7 "rs1" (fun _ => RpcResult.ok) 900).2 :=
  ⟨(C7_room_failure_amended stateC7 "rs1" (fun _ => RpcResult.ok) 900).2.2.1 jobC7rec
      (by decide),
   (C7_room_failure_amended stateC7 "rs1" (fun _ => RpcResult.ok) 900).2.1 "j7" jobC7init
      (by decide) (by decide),
   (C7_room_failure_amended stateC7 "rs1" (fun _ => RpcResult.ok) 900).2.2.2 jobC7rec
      "http://n1" (by decide) (by decide)⟩

/-- On the two identical recorders (ids "b" then "a") the placement
engine returns the first of the input list. -/
theorem selectBA_eq : selectOptimalFFmpegNode [nodeB, nodeA] reqC8 = some nodeB := by
  have hsort : sortByScoreDesc reqC8 (placementCandidates [nodeB, nodeA] reqC8)
      = [nodeB, nodeA] := by
    show insertByScoreDesc reqC8 nodeB [nodeA] = [nodeB, nodeA]
    rw [insertByScoreDesc]
    split
    · rfl
    · rename_i hc
      exact absurd (le_of_eq rfl) hc
  unfold selectOptimalFFmpegNode
  rw [hsort]

/-- C8 counterexample: two otherwise identical candidates, `nodeB` (id
"b") listed before `nodeA` (id "a"), have equal scores; the engine
returns `nodeB`, not the lexicographically smallest id "a" — the stable
sort breaks ties by input position, not by identifier. -/
theorem C8_tiebreak_counterexample :
    (selectOptimalFFmpegNode [nodeB, nodeA] reqC8).map (fun n => n.id) = some "b"
    ∧ nodeA ∈ [nodeB, nodeA]
    ∧ calculateNodeScore nodeA reqC8 = calculateNodeScore nodeB reqC8
    ∧ nodeA.id < nodeB.id := by
  refine ⟨?_, ?_, rfl, ?_⟩
  · rw [selectBA_eq]; rfl
  · exact List.mem_cons_of_mem _ (List.mem_singleton_self _)
  · show ("a" : String) < "b"
    rw [String.lt_iff_toList_lt]
    decide

/-- C8 (amended): the placement engine is a pure function — equal
candidate lists and requirements give equal results — and whenever it
returns a recorder, that recorder occurs in the filtered candidate list
at a position such that no candidate scores higher and every earlier
candidate scores strictly lower: ties are broken by position in the
input list, not lexicographically by id. -/
theorem C8_placement_determinism_amended :
    (∀ l1 l2 r1 r2, l1 = l2 → r1 = r2 →
        selectOptimalFFmpegNode l1 r1 = selectOptimalFFmpegNode l2 r2)
    ∧ (∀ l r n, selectOptimalFFmpegNode l r = some n →
        ∃ i, (placementCandidates l r).get? i = some n
          ∧ (∀ j y, (placementCandidates l r).get? j = some y →
              calculateNodeScore y r ≤ calculateNodeScore n r)
          ∧ (∀ j y, j < i → (placementCandidates l r).get? j = some y →
              calculateNodeScore y r < calculateNodeScore n r)) := by
  constructor
  · intro l1 l2 r1 r2 h1 h2
    rw [h1, h2]
  · intro l r n h
    have hh : pickMax r (placementCandidates l r) = some n := by
      rw [← head?_sortByScoreDesc]
      unfold selectOptimalFFmpegNode at h
      cases hs : sortByScoreDesc r (placementCandidates l r) with
      | nil => rw [hs] at h; cases h
      | cons a as =>
        rw [hs] at h
        have h2 : some a = some n := h
        cases h2
        rfl
    exact pickMax_spec r (placementCandidates l r) n hh

/-- Witness for C8 (amended) at the concrete tie: the returned recorder
`nodeB` is the earliest maximal-score candidate. -/
theorem C8_placement_determinism_amended_witness :
    ∃ i, (placementCandidates [nodeB, nodeA] reqC8).get? i = some nodeB
      ∧ (∀ j y, (placementCandidates [nodeB, nodeA] reqC8).get? j = some y →
          calculateNodeScore y reqC8 ≤ calculateNodeScore nodeB reqC8)
      ∧ (∀ j y, j < i → (placementCandidates [nodeB, nodeA] reqC8).get? j = some y →
          calculateNodeScore y reqC8 < calculateNodeScore nodeB reqC8) :=
  C8_placement_determinism_amended.2 [nodeB, nodeA] reqC8 nodeB selectBA_eq

/-- `stopAfterNode` with a resolving room server and a 2xx response:
forwarding stopped, room-server load released (clamped), completion. -/
theorem stopAfterNode_found_ok (st : OrchState) (job : Job) (now : Nat)
    (effs : List Effect) (rs : RoomServerNode)
    (hrs : st.roomServers.find? (fun r => r.id == job.roomServerId) = some rs) :
    stopAfterNode st job RpcResult.ok now effs
      = stopComplete (updateRoomServer st { rs with currentLoad := rs.currentLoad - 1 })
          job now (effs ++ [Effect.stopForwardingRpc rs.url job.jobId]) := by
  unfold stopAfterNode
  rw [hrs]
  rfl

/-- A fully successful assignment: job `recording` (same identifier),
recorder load and active list extended, room-server load bumped. -/
theorem assign_ok_spec (job : Job) (node : FFmpegNode) (rs : RoomServerNode)
    (oracle : AssignOracle) (h : assignError oracle = none) :
    (assignJobToNode job node rs oracle).job.status = JobStatus.recording
    ∧ (assignJobToNode job node rs oracle).job.jobId = job.jobId
    ∧ (assignJobToNode job node rs oracle).node
      = { node with currentLoad := node.currentLoad + 1, activeJobs := node.activeJobs ++ [job.jobId] }
    ∧ (assignJobToNode job node rs oracle).roomServer
      = { rs with currentLoad := rs.currentLoad + 1 }
    ∧ (assignJobToNode job node rs oracle).success = true := by
  rcases oracle with ⟨a, f, s⟩
  unfold assignError at h
  unfold assignJobToNode
  cases a with
  | error m => cases h
  | ok ports =>
    cases f with
    | error m => cases h
    | ok u =>
      cases s with
      | error m => cases h
      | ok u2 => exact ⟨rfl, rfl, rfl, rfl, rfl⟩

/-- Erasing the single occurrence of a key removes it. -/
theorem contains_erase_eq_false (l : List String) (a : String) (h : l.count a = 1) :
    (l.erase a).contains a = false := by
  have h0 : (l.erase a).count a = 0 := by
    rw [List.count_erase_self, h]
  have hnot : a ∉ l.erase a := List.count_eq_zero.mp h0
  cases hc : (l.erase a).contains a with
  | false => rfl
  | true => exact absurd (List.elem_iff.mp hc) hnot

/-- `queueDrainStep` applied to an explicit accumulator pair. -/
theorem queueDrainStep_pair (oracle : String → AssignOracle) (st : OrchState)
    (avail : List String) (jobId : String) :
    queueDrainStep oracle (st, avail) jobId
      = match getJob st jobId with
        | none => (st, avail)
        | some job =>
          match st.roomServers.find? (fun r => r.id == job.roomServerId) with
          | none => (st, avail)
          | some rs =>
            if !rs.isHealthy then (st, avail)
            else
              match selectOptimalFFmpegNode (drainAvailNodes st avail)
                  (drainRequirements rs job) with
              | none => (st, avail)
              | some node =>
                (updateRoomServer (updateNode (updateJob
                    { st with jobQueue := st.jobQueue.erase jobId }
                    (assignJobToNode job node rs (oracle jobId)).job)
                    (assignJobToNode job node rs (oracle jobId)).node)
                    (assignJobToNode job node rs (oracle jobId)).roomServer,
                  avail.erase node.id) := rfl

/-- `queueDrainStep` when the job resolves, its room server is healthy,
and the placement engine returns a recorder: the queue entry is removed
and the assignment result written back. -/
theorem queueDrainStep_assign (oracle : String → AssignOracle) (st : OrchState)
    (avail : List String) (jobId : String) (job : Job) (rs : RoomServerNode)
    (node : FFmpegNode)
    (hj : getJob st jobId = some job)
    (hrs : st.roomServers.find? (fun r => r.id == job.roomServerId) = some rs)
    (hrsh : rs.isHealthy = true)
    (hsel : selectOptimalFFmpegNode (drainAvailNodes st avail) (drainRequirements rs job)
      = some node) :
    queueDrainStep oracle (st, avail) jobId
      = (updateRoomServer (updateNode (updateJob { st with jobQueue := st.jobQueue.erase jobId }
          (assignJobToNode job node rs (oracle jobId)).job)
          (assignJobToNode job node rs (oracle jobId)).node)
          (assignJobToNode job node rs (oracle jobId)).roomServer,
        avail.erase node.id) := by
  rw [queueDrainStep_pair]
  split
  · rename_i heq
    rw [hj] at heq
    cases heq
  · rename_i job2 heq
    rw [hj] at heq
    injection heq with heq2
    subst heq2
    split
    · rename_i heq3
      rw [hrs] at heq3
      cases heq3
    · rename_i rs2 heq3
      rw [hrs] at heq3
      injection heq3 with heq4
      subst heq4
      have hcond : ¬ ((!rs.isHealthy) = true) := by rw [hrsh]; simp
      rw [if_neg hcond]
      split
      · rename_i heq5
        rw [hsel] at heq5
        cases heq5
      · rename_i node2 heq5
        rw [hsel] at heq5
        injection heq5 with heq6
        subst heq6
        rfl

/-- C10: stopping a pending, still-queued job succeeds and transitions
it to `completed`, removing it from the active map but NOT from the
pending queue; a subsequent queue-drain pass can then select the
already-terminal job and assign it to a recorder again: its status ends
up `recording`, the recorder's active list gains the job, and only then
does the queue entry disappear. -/
theorem C10_stop_leaves_job_in_queue :
    ∀ st j rs node now oracle,
      getJob st j.jobId = some j →
      st.activeJobIds.contains j.jobId = true →
      st.activeJobIds.count j.jobId = 1 →
      j.status = JobStatus.pending →
      j.ffmpegNodeId = "" →
      st.ffmpegNodes.find? (fun n => n.id == "") = none →
      st.roomServers.find? (fun r => r.id == j.roomServerId) = some rs →
      rs.isHealthy = true →
      st.jobQueue = [j.jobId] →
      node ∈ st.ffmpegNodes →
      selectOptimalFFmpegNode (drainAvailNodes (stopDistributedRecording st j.jobId RpcResult.ok RpcResult.ok now).state (drainAvailIds (stopDistributedRecording st j.jobId RpcResult.ok RpcResult.ok now).state)) (drainRequirements { rs with currentLoad := rs.currentLoad - 1 } { j with status := JobStatus.completed, endTime := some now }) = some node →
      assignError (oracle j.jobId) = none →
      ((∃ s, (stopDistributedRecording st j.jobId RpcResult.ok RpcResult.ok now).outcome = .ok s)
        ∧ getJob (stopDistributedRecording st j.jobId RpcResult.ok RpcResult.ok now).state j.jobId = some { j with status := JobStatus.completed, endTime := some now }
        ∧ (stopDistributedRecording st j.jobId RpcResult.ok RpcResult.ok now).state.activeJobIds.contains j.jobId = false
        ∧ (stopDistributedRecording st j.jobId RpcResult.ok RpcResult.ok now).state.jobQueue = [j.jobId])
      ∧ ((getJob (processJobQueue (stopDistributedRecording st j.jobId RpcResult.ok RpcResult.ok now).state oracle) j.jobId).map Job.status = some JobStatus.recording
        ∧ ((processJobQueue (stopDistributedRecording st j.jobId RpcResult.ok RpcResult.ok now).state oracle).ffmpegNodes.find? (fun k => k.id == node.id)).map (fun k => k.activeJobs.contains j.jobId) = some true
        ∧ (processJobQueue (stopDistributedRecording st j.jobId RpcResult.ok RpcResult.ok now).state oracle).jobQueue = []) := by
  intro st j rs node now oracle hj hcon hcount hstat hffid hnof hrs hrsh hq hnodemem hsel hok
  have hag : activeGet st j.jobId = some j := by
    unfold activeGet
    rw [if_pos hcon]
    exact hj
  have hrsid : rs.id = j.roomServerId :=
    beq_iff_eq.mp (@List.find?_some RoomServerNode _ rs st.roomServers hrs)
  have hstop : stopDistributedRecording st j.jobId RpcResult.ok RpcResult.ok now = stopComplete (updateRoomServer st { rs with currentLoad := rs.currentLoad - 1 }) j now [Effect.stopForwardingRpc rs.url j.jobId] := by
    rw [stopDistributedRecording_found st j RpcResult.ok RpcResult.ok now hag, hffid, hnof]
    exact stopAfterNode_found_ok st j now [] rs hrs
  have hsome : (getJob st j.jobId).isSome = true := by rw [hj]; rfl
  have hsome2 : (getJob (updateRoomServer st { rs with currentLoad := rs.currentLoad - 1 }) j.jobId).isSome = true := by
    rw [getJob_updateRoomServer]
    exact hsome
  have hCs := stopComplete_spec (updateRoomServer st { rs with currentLoad := rs.currentLoad - 1 }) j now [Effect.stopForwardingRpc rs.url j.jobId] hsome2
  have hA2 : getJob (stopDistributedRecording st j.jobId RpcResult.ok RpcResult.ok now).state j.jobId = some { j with status := JobStatus.completed, endTime := some now } := by
    rw [hstop]
    exact hCs.2.1
  have hA3 : (stopDistributedRecording st j.jobId RpcResult.ok RpcResult.ok now).state.activeJobIds.contains j.jobId = false := by
    rw [hstop, hCs.2.2.2.1]
    exact contains_erase_eq_false st.activeJobIds j.jobId hcount
  have hA4 : (stopDistributedRecording st j.jobId RpcResult.ok RpcResult.ok now).state.jobQueue = [j.jobId] := by
    rw [hstop, hCs.2.2.2.2.1]
    exact hq
  have hffeq : (stopDistributedRecording st j.jobId RpcResult.ok RpcResult.ok now).state.ffmpegNodes = st.ffmpegNodes := by
    rw [hstop]
    exact hCs.2.2.1
  have hrs2find : (stopDistributedRecording st j.jobId RpcResult.ok RpcResult.ok now).state.roomServers.find? (fun r => r.id == j.roomServerId) = some { rs with currentLoad := rs.currentLoad - 1 } := by
    rw [hstop]
    exact find?_updateBy RoomServerNode.id { rs with currentLoad := rs.currentLoad - 1 } st.roomServers j.roomServerId hrsid (by rw [hrs]; rfl)
  have hdrain := queueDrainStep_assign oracle (stopDistributedRecording st j.jobId RpcResult.ok RpcResult.ok now).state (drainAvailIds (stopDistributedRecording st j.jobId RpcResult.ok RpcResult.ok now).state) j.jobId { j with status := JobStatus.completed, endTime := some now } { rs with currentLoad := rs.currentLoad - 1 } node hA2 hrs2find hrsh hsel
  have hA := assign_ok_spec { j with status := JobStatus.completed, endTime := some now } node { rs with currentLoad := rs.currentLoad - 1 } (oracle j.jobId) hok
  have hpq : processJobQueue (stopDistributedRecording st j.jobId RpcResult.ok RpcResult.ok now).state oracle = updateRoomServer (updateNode (updateJob { (stopDistributedRecording st j.jobId RpcResult.ok RpcResult.ok now).state with jobQueue := [] } (assignJobToNode { j with status := JobStatus.completed, endTime := some now } node { rs with currentLoad := rs.currentLoad - 1 } (oracle j.jobId)).job) (assignJobToNode { j with status := JobStatus.completed, endTime := some now } node { rs with currentLoad := rs.currentLoad - 1 } (oracle j.jobId)).node) (assignJobToNode { j with status := JobStatus.completed, endTime := some now } node { rs with currentLoad := rs.currentLoad - 1 } (oracle j.jobId)).roomServer := by
    unfold processJobQueue
    rw [hA4]
    show (queueDrainStep oracle ((stopDistributedRecording st j.jobId RpcResult.ok RpcResult.ok now).state, drainAvailIds (stopDistributedRecording st j.jobId RpcResult.ok RpcResult.ok now).state) j.jobId).1 = _
    rw [hdrain]
    show updateRoomServer (updateNode (updateJob { (stopDistributedRecording st j.jobId RpcResult.ok RpcResult.ok now).state with jobQueue := (stopDistributedRecording st j.jobId RpcResult.ok RpcResult.ok now).state.jobQueue.erase j.jobId } _) _) _ = _
    rw [hA4, List.erase_cons_head]
  have hB1 : (getJob (processJobQueue (stopDistributedRecording st j.jobId RpcResult.ok RpcResult.ok now).state oracle) j.jobId).map Job.status = some JobStatus.recording := by
    rw [hpq]
    have hget : getJob (updateJob { (stopDistributedRecording st j.jobId RpcResult.ok RpcResult.ok now).state with jobQueue := [] } (assignJobToNode { j with status := JobStatus.completed, endTime := some now } node { rs with currentLoad := rs.currentLoad - 1 } (oracle j.jobId)).job) j.jobId = some (assignJobToNode { j with status := JobStatus.completed, endTime := some now } node { rs with currentLoad := rs.currentLoad - 1 } (oracle j.jobId)).job := by
      apply getJob_updateJob
      · exact hA.2.1
      · show (getJob (stopDistributedRecording st j.jobId RpcResult.ok RpcResult.ok now).state j.jobId).isSome = true
        rw [hA2]
        rfl
    rw [getJob_updateRoomServer, getJob_updateNode, hget, Option.map_some', hA.1]
  have hAid : (assignJobToNode { j with status := JobStatus.completed, endTime := some now } node { rs with currentLoad := rs.currentLoad - 1 } (oracle j.jobId)).node.id = node.id := by
    rw [hA.2.2.1]
  have hpres : ((updateJob { (stopDistributedRecording st j.jobId RpcResult.ok RpcResult.ok now).state with jobQueue := [] } (assignJobToNode { j with status := JobStatus.completed, endTime := some now } node { rs with currentLoad := rs.currentLoad - 1 } (oracle j.jobId)).job).ffmpegNodes.find? (fun k => k.id == node.id)).isSome = true := by
    show ((stopDistributedRecording st j.jobId RpcResult.ok RpcResult.ok now).state.ffmpegNodes.find? (fun k => k.id == node.id)).isSome = true
    rw [hffeq, List.find?_isSome]
    exact ⟨node, hnodemem, by simp⟩
  have hB2 : ((processJobQueue (stopDistributedRecording st j.jobId RpcResult.ok RpcResult.ok now).state oracle).ffmpegNodes.find? (fun k => k.id == node.id)).map (fun k => k.activeJobs.contains j.jobId) = some true := by
    rw [hpq]
    have hfind : (updateRoomServer (updateNode (updateJob { (stopDistributedRecording st j.jobId RpcResult.ok RpcResult.ok now).state with jobQueue := [] } (assignJobToNode { j with status := JobStatus.completed, endTime := some now } node { rs with currentLoad := rs.currentLoad - 1 } (oracle j.jobId)).job) (assignJobToNode { j with status := JobStatus.completed, endTime := some now } node { rs with currentLoad := rs.currentLoad - 1 } (oracle j.jobId)).node) (assignJobToNode { j with status := JobStatus.completed, endTime := some now } node { rs with currentLoad := rs.currentLoad - 1 } (oracle j.jobId)).roomServer).ffmpegNodes.find? (fun k => k.id == node.id) = some (assignJobToNode { j with status := JobStatus.completed, endTime := some now } node { rs with currentLoad := rs.currentLoad - 1 } (oracle j.jobId)).node := by
      exact find?_updateBy FFmpegNode.id _ _ node.id hAid hpres
    rw [hfind, Option.map_some', hA.2.2.1]
    show some ((node.activeJobs ++ [j.jobId]).contains j.jobId) = some true
    have hmem2 : j.jobId ∈ node.activeJobs ++ [j.jobId] :=
      List.mem_append_right _ (List.mem_singleton_self _)
    rw [show (node.activeJobs ++ [j.jobId]).contains j.jobId = true from List.elem_iff.mpr hmem2]
  have hB3 : (processJobQueue (stopDistributedRecording st j.jobId RpcResult.ok RpcResult.ok now).state oracle).jobQueue = [] := by
    rw [hpq]
    rfl
  exact ⟨⟨⟨_, by rw [hstop]; exact hCs.1⟩, hA2, hA3, hA4⟩, hB1, hB2, hB3⟩

/-- Witness for C10 at the concrete state `stateC10`: job `jq` is
completed by the stop yet still queued, and the next drain pass puts it
back into `recording`. -/
theorem C10_stop_leaves_job_in_queue_witness :
    (stopDistributedRecording stateC10 "jq" RpcResult.ok RpcResult.ok 500).state.jobQueue = ["jq"]
    ∧ (getJob (processJobQueue (stopDistributedRecording stateC10 "jq" RpcResult.ok RpcResult.ok 500).state (fun _ => oracleOk)) "jq").map Job.status = some JobStatus.recording
    ∧ (processJobQueue (stopDistributedRecording stateC10 "jq" RpcResult.ok RpcResult.ok 500).state (fun _ => oracleOk)).jobQueue = [] := by
  have h := C10_stop_leaves_job_in_queue stateC10 jobC10 exRoomServer exNode 500
    (fun _ => oracleOk) (by decide) (by decide) (by decide) rfl rfl (by decide) (by decide)
    rfl rfl (by decide) (by decide) rfl
  exact ⟨h.1.2.2.2, h.2.1, h.2.2.2⟩
